import Mathlib

/-!
Verification development for the encode_now relay backend.

The definitions below are a shallow embedding of the code in
src/app/main.py and src/app/db.py: the three SQL tables become lists of
row structures, the SQLAlchemy queries become list operations, and each
route handler becomes a Lean function on an explicit state.  Machine
integers are modelled as Nat (ids are autoincrement primary keys, always
positive).  The SHA-256 content hash is an abstract parameter
`hash : List Nat → Nat` of the operations (the claims only depend on
equality and distinctness of digests).  The SQL query
`ORDER BY created_at ASC LIMIT 1` used to evict the oldest replay record
does not determine which row is returned when several rows tie on
`created_at`; that underdetermination is modelled by a parameter
`pick : List HashRow → Option HashRow` constrained by `ValidPick`.
-/

/-- Row of the `users` table (db.py lines 15-20): integer primary key and a
unique public key. -/
structure UserRow where
  id : Nat
  public_key : String
deriving DecidableEq, Repr

/-- Row of the `messages` table (db.py lines 23-30). -/
structure MessageRow where
  id : Nat
  sender_id : Nat
  recipient_id : Nat
  ciphertext : List Nat
deriving DecidableEq, Repr

/-- Row of the `message_hashes` table (db.py lines 33-40); `created_at` is
the server-side timestamp, modelled as a Nat. -/
structure HashRow where
  id : Nat
  recipient_id : Nat
  message_hash : Nat
  created_at : Nat
deriving DecidableEq, Repr

/-- The persistent database: the three tables plus the autoincrement
counters for their primary keys. -/
structure DB where
  users : List UserRow
  messages : List MessageRow
  message_hashes : List HashRow
  next_user_id : Nat
  next_message_id : Nat
  next_hash_id : Nat
deriving DecidableEq, Repr

/-- The in-process long-poll state (main.py lines 18-19):
`waiting` models the key set of `waiting_clients` and `new_messages`
models the buffer dictionary. -/
structure Hub where
  waiting : List Nat
  new_messages : List (Nat × List MessageRow)
deriving DecidableEq, Repr

/-- Full server state: database plus the in-memory notification hub. -/
structure SState where
  db : DB
  hub : Hub
deriving DecidableEq, Repr

/-- Error outcomes of the route handlers, by HTTP status:
400, 409, 404 and 500. -/
inductive ApiError where
  | badRequest
  | conflict
  | notFound
  | serverError
deriving DecidableEq, Repr

/-- REPLAY_ATTACK_HASH_COUNT from main.py line 12. -/
def REPLAY_ATTACK_HASH_COUNT : Nat := 50

/-- Python truthiness of an optional integer: `None` and `0` are falsy.
The handlers test looked-up ids with `if user_id:` and `if not user_id:`. -/
def truthy (o : Option Nat) : Bool :=
  match o with
  | none => false
  | some n => n != 0

/-- get_user (main.py lines 34-38): select the user row by public key and
return its id. -/
def get_user (db : DB) (pk : String) : Option Nat :=
  (db.users.find? (fun u => u.public_key == pk)).map (fun u => u.id)

/-- get_or_create_user (main.py lines 41-47): return the looked-up id when
truthy, otherwise insert a fresh row and return the new primary key. -/
def get_or_create_user (db : DB) (pk : String) : Nat × DB :=
  if truthy (get_user db pk) then ((get_user db pk).getD 0, db)
  else
    (db.next_user_id,
     { db with
        users := db.users ++ [⟨db.next_user_id, pk⟩],
        next_user_id := db.next_user_id + 1 })

/-- The replay-attack lookup (main.py lines 71-75): does a hash record for
this recipient and digest exist. -/
def replay_hit (db : DB) (recip h : Nat) : Bool :=
  db.message_hashes.any (fun r => r.recipient_id == recip && r.message_hash == h)

/-- The hash records retained for one recipient, in table order. -/
def filtered_hashes (db : DB) (recip : Nat) : List HashRow :=
  db.message_hashes.filter (fun r => r.recipient_id == recip)

/-- The count query of main.py lines 95-98: number of hash records for the
recipient. -/
def hash_count (db : DB) (recip : Nat) : Nat :=
  (filtered_hashes db recip).length

/-- Validity of a model of the SQL query
`SELECT id ... ORDER BY created_at ASC LIMIT 1`: on a nonempty row list it
returns one of the rows, with minimal `created_at`; ties on `created_at`
are left unspecified. -/
def ValidPick (pick : List HashRow → Option HashRow) : Prop :=
  ∀ l : List HashRow,
    (∀ r, pick l = some r → r ∈ l ∧ ∀ r2 ∈ l, r.created_at ≤ r2.created_at) ∧
    (pick l = none → l = [])

/-- A concrete resolution of the oldest-row query: the first row of minimal
`created_at` in table order. -/
def pick_first : List HashRow → Option HashRow
  | [] => none
  | r :: rest =>
    match pick_first rest with
    | none => some r
    | some r2 => if r.created_at ≤ r2.created_at then some r else some r2

/-- Another concrete resolution of the oldest-row query: the last row of
minimal `created_at` in table order. -/
def pick_last : List HashRow → Option HashRow
  | [] => none
  | r :: rest =>
    match pick_last rest with
    | none => some r
    | some r2 => if r2.created_at ≤ r.created_at then some r2 else some r

/-- The cleanup step of main.py lines 94-107: recount the recipient's hash
records; when the count exceeds K=50, fetch the oldest row (modelled by
`pick`) and, when its id is truthy, delete the rows carrying that id. -/
def trim_hashes (pick : List HashRow → Option HashRow) (db : DB) (recip : Nat) : DB :=
  if hash_count db recip > REPLAY_ATTACK_HASH_COUNT then
    match pick (filtered_hashes db recip) with
    | some oldest =>
      if oldest.id != 0 then
        { db with message_hashes := db.message_hashes.filter (fun r => r.id != oldest.id) }
      else db
    | none => db
  else db

/-- The two inserts of main.py lines 80-92 inside the transaction: append
the message row under the next message id, and append the hash record
(timestamped `ts`) under the next hash id. -/
def tx_insert (db : DB) (sender recip h ts : Nat) (ct : List Nat) : DB :=
  { db with
     messages := db.messages ++ [(⟨db.next_message_id, sender, recip, ct⟩ : MessageRow)],
     next_message_id := db.next_message_id + 1,
     message_hashes := db.message_hashes ++ [(⟨db.next_hash_id, recip, h, ts⟩ : HashRow)],
     next_hash_id := db.next_hash_id + 1 }

/-- The transaction body of main.py lines 79-107: insert the message row,
insert the hash record, then run the cleanup step.  Returns the new
message id together with the updated database. -/
def tx_body (pick : List HashRow → Option HashRow) (db : DB)
    (sender recip h ts : Nat) (ct : List Nat) : Nat × DB :=
  (db.next_message_id, trim_hashes pick (tx_insert db sender recip h ts ct) recip)

/-- Lookup in the `new_messages` dictionary, modelled as an association
list. -/
def buf_lookup (l : List (Nat × List MessageRow)) (k : Nat) : Option (List MessageRow) :=
  (l.find? (fun p => p.1 == k)).map (fun p => p.2)

/-- Dictionary write `new_messages[k] = v`. -/
def buf_set (l : List (Nat × List MessageRow)) (k : Nat) (v : List MessageRow) :
    List (Nat × List MessageRow) :=
  match l with
  | [] => [(k, v)]
  | p :: rest => if p.1 == k then (k, v) :: rest else p :: buf_set rest k v

/-- Dictionary delete `del new_messages[k]` (a no-op when absent, matching
the guarded deletes in the handlers). -/
def buf_del (l : List (Nat × List MessageRow)) (k : Nat) : List (Nat × List MessageRow) :=
  l.filter (fun p => p.1 != k)

/-- Dictionary write `waiting_clients[k] = event`, on the key set: ensure
the key is present. -/
def waiting_add (l : List Nat) (k : Nat) : List Nat :=
  if k ∈ l then l else l ++ [k]

/-- The notification block of main.py lines 109-117: when the recipient has
a registered waiter, re-fetch the stored message row and append it to the
recipient's buffer.  The re-fetch is a database read that can fail at
runtime; a failure there is modelled by `fails` and surfaces as the
catch-all 500 of lines 123-124. -/
def notify (fails : Bool) (hub : Hub) (db : DB) (recip mid : Nat) : Except ApiError Hub :=
  if recip ∈ hub.waiting then
    if fails then .error .serverError
    else
      match db.messages.find? (fun m => m.id == mid) with
      | some row =>
        .ok { hub with
               new_messages :=
                 buf_set hub.new_messages recip
                   ((buf_lookup hub.new_messages recip).getD [] ++ [row]) }
      | none => .error .serverError
  else .ok hub

/-- save_message (main.py lines 50-124), sequential semantics: reject an
empty body; resolve both identities; reject a replay hit with 409 before
the transaction; otherwise run the transaction body and then the
best-effort notification, whose failure is converted to a 500 response
after the transaction has already committed. -/
def save_message (hash : List Nat → Nat) (pick : List HashRow → Option HashRow)
    (notify_fails : Bool) (ts : Nat) (st : SState)
    (sender_pk recipient_pk : String) (ciphertext : List Nat) :
    Except ApiError Nat × SState :=
  if ciphertext = [] then (.error .badRequest, st)
  else
    let h := hash ciphertext
    let p1 := get_or_create_user st.db sender_pk
    let p2 := get_or_create_user p1.2 recipient_pk
    if replay_hit p2.2 p2.1 h then (.error .conflict, ⟨p2.2, st.hub⟩)
    else
      let q := tx_body pick p2.2 p1.1 p2.1 h ts ciphertext
      match notify notify_fails st.hub q.2 p2.1 q.1 with
      | .ok hub2 => (.ok q.1, ⟨q.2, hub2⟩)
      | .error e => (.error e, ⟨q.2, st.hub⟩)

/-- Insertion of a message row into a list sorted by the boolean order
`le`. -/
def insert_by (le : MessageRow → MessageRow → Bool) (m : MessageRow) :
    List MessageRow → List MessageRow
  | [] => [m]
  | x :: xs => if le m x then m :: x :: xs else x :: insert_by le m xs

/-- Sorting of a row list by the boolean order `le`; used to model the SQL
`ORDER BY` clauses of the history query. -/
def sort_by (le : MessageRow → MessageRow → Bool) (l : List MessageRow) : List MessageRow :=
  l.foldr (insert_by le) []

/-- ORDER BY id ASC. -/
def sort_asc (l : List MessageRow) : List MessageRow :=
  sort_by (fun a b => decide (a.id ≤ b.id)) l

/-- ORDER BY id DESC. -/
def sort_desc (l : List MessageRow) : List MessageRow :=
  sort_by (fun a b => decide (b.id ≤ a.id)) l

/-- The WHERE clause of the history query (main.py lines 186-188): the
messages whose sender or recipient is the user, in table order. -/
def involving (db : DB) (uid : Nat) : List MessageRow :=
  db.messages.filter (fun m => m.sender_id == uid || m.recipient_id == uid)

/-- get_messages (main.py lines 169-204): reject the request when both
anchors are present; return an empty page for an unknown (falsy) identity;
otherwise filter the messages involving the user, order and limit them per
mode, and reverse the descending modes back to ascending. -/
def get_messages (db : DB) (public_key : String)
    (since_id until_id : Option Nat) (limit : Nat) :
    Except ApiError (List MessageRow) :=
  if since_id.isSome && until_id.isSome then .error .badRequest
  else if !truthy (get_user db public_key) then .ok []
  else
    let uid := (get_user db public_key).getD 0
    let base := involving db uid
    match since_id, until_id with
    | some a, _ => .ok ((sort_asc (base.filter (fun m => a < m.id))).take limit)
    | none, some b => .ok (((sort_desc (base.filter (fun m => m.id < b))).take limit).reverse)
    | none, none => .ok (((sort_desc base).take limit).reverse)

/-- Outcome of entering poll_for_messages (main.py lines 127-147): 404 on
an unknown identity; an immediate answer when the buffer already holds
messages; otherwise a registered wait. -/
inductive PollStart where
  | notFound : PollStart
  | immediate : List MessageRow → SState → PollStart
  | registered : Nat → SState → PollStart
deriving Repr

/-- The entry phase of poll_for_messages (main.py lines 127-147): resolve
the identity (404 when falsy); when buffered messages are pending, pop and
return them at once; otherwise register an event in `waiting_clients` and
an empty buffer in `new_messages`, then suspend. -/
def poll_begin (st : SState) (public_key : String) : PollStart :=
  if !truthy (get_user st.db public_key) then .notFound
  else
    let uid := (get_user st.db public_key).getD 0
    if ((buf_lookup st.hub.new_messages uid).getD []) ≠ [] then
      .immediate ((buf_lookup st.hub.new_messages uid).getD [])
        { st with hub := { st.hub with new_messages := buf_del st.hub.new_messages uid } }
    else
      .registered uid
        { st with hub :=
            { waiting := waiting_add st.hub.waiting uid,
              new_messages := buf_set st.hub.new_messages uid [] } }

/-- The wake path of poll_for_messages (main.py lines 149-166): after the
event fires, read the accumulated buffer and tear down the wait record and
the buffer entry. -/
def poll_resume (st : SState) (uid : Nat) : List MessageRow × SState :=
  ((buf_lookup st.hub.new_messages uid).getD [],
   { st with hub :=
      { waiting := st.hub.waiting.filter (fun x => x != uid),
        new_messages := buf_del st.hub.new_messages uid } })

/-- The timeout path of poll_for_messages (main.py lines 157-166): an empty
result with the same teardown. -/
def poll_timeout (st : SState) (uid : Nat) : List MessageRow × SState :=
  ([],
   { st with hub :=
      { waiting := st.hub.waiting.filter (fun x => x != uid),
        new_messages := buf_del st.hub.new_messages uid } })

/-- Phases of one in-flight save_message request, at the granularity of its
awaited database operations: the replay-attack lookup of main.py lines
70-76 is one database round trip, and the transaction of lines 79-107 is
one atomic unit. -/
inductive SubStep where
  | look
  | commit
deriving DecidableEq, Repr

/-- Local state of one in-flight save_message request: the phases still to
run and the response once produced. -/
structure SubThread where
  todo : List SubStep
  result : Option (Except ApiError Nat)
deriving Repr

/-- The fresh in-flight request: replay lookup, then the transaction. -/
def sub_start : SubThread :=
  ⟨[SubStep.look, SubStep.commit], none⟩

/-- One scheduler step of an in-flight save_message request with both
identities already resolved: the replay lookup answers 409 and stops the
request when a hash record exists, and the commit phase runs the whole
transaction body atomically. -/
def sub_step (hash : List Nat → Nat) (pick : List HashRow → Option HashRow)
    (ts sender recip : Nat) (ct : List Nat) (db : DB) (t : SubThread) :
    DB × SubThread :=
  match t.todo with
  | [] => (db, t)
  | SubStep.look :: rest =>
    if replay_hit db recip (hash ct) then (db, ⟨[], some (.error .conflict)⟩)
    else (db, ⟨rest, t.result⟩)
  | SubStep.commit :: rest =>
    let q := tx_body pick db sender recip (hash ct) ts ct
    (q.2, ⟨rest, some (.ok q.1)⟩)

/-- Interleaved execution of two concurrent save_message requests for the
same sender, recipient and ciphertext: each scheduler tick (true for the
first request, false for the second) runs the next awaited database
operation of that request. -/
def run_two (hash : List Nat → Nat) (pick : List HashRow → Option HashRow)
    (ts1 ts2 sender recip : Nat) (ct : List Nat) :
    List Bool → DB → SubThread → SubThread → DB × SubThread × SubThread
  | [], db, t1, t2 => (db, t1, t2)
  | true :: sched, db, t1, t2 =>
    let s := sub_step hash pick ts1 sender recip ct db t1
    run_two hash pick ts1 ts2 sender recip ct sched s.1 s.2 t2
  | false :: sched, db, t1, t2 =>
    let s := sub_step hash pick ts2 sender recip ct db t2
    run_two hash pick ts1 ts2 sender recip ct sched s.1 t1 s.2

/-- Phases of one in-flight get_or_create_user call (main.py lines 41-47):
the select, then the insert attempted only on a miss. -/
inductive ResStep where
  | look
  | ins
deriving DecidableEq, Repr

/-- Local state of one in-flight get_or_create_user call; an error result
is the propagated unique-constraint violation. -/
structure ResThread where
  todo : List ResStep
  result : Option (Except Unit Nat)
deriving Repr

/-- The fresh in-flight identity resolution: lookup, then insert on miss. -/
def res_start : ResThread :=
  ⟨[ResStep.look, ResStep.ins], none⟩

/-- An INSERT into `users`, whose `public_key` column carries a unique
constraint (db.py line 19): the insert fails when a row with this key
already exists. -/
def users_insert_unique (db : DB) (pk : String) : Except Unit (Nat × DB) :=
  if db.users.any (fun u => u.public_key == pk) then .error ()
  else
    .ok (db.next_user_id,
      { db with
         users := db.users ++ [⟨db.next_user_id, pk⟩],
         next_user_id := db.next_user_id + 1 })

/-- One scheduler step of an in-flight get_or_create_user call: the lookup
returns a truthy id and stops, or proceeds to the insert; the insert
either commits a fresh row or hits the unique constraint, which
get_or_create_user does not catch, so the violation becomes the call's
outcome. -/
def res_step (pk : String) (db : DB) (t : ResThread) : DB × ResThread :=
  match t.todo with
  | [] => (db, t)
  | ResStep.look :: rest =>
    if truthy (get_user db pk) then (db, ⟨[], some (.ok ((get_user db pk).getD 0))⟩)
    else (db, ⟨rest, t.result⟩)
  | ResStep.ins :: rest =>
    match users_insert_unique db pk with
    | .ok q => (q.2, ⟨rest, some (.ok q.1)⟩)
    | .error _ => (db, ⟨rest, some (.error ())⟩)

/-- Interleaved execution of two concurrent get_or_create_user calls for
the same public key. -/
def run_two_res (pk : String) :
    List Bool → DB → ResThread → ResThread → DB × ResThread × ResThread
  | [], db, t1, t2 => (db, t1, t2)
  | true :: sched, db, t1, t2 =>
    let s := res_step pk db t1
    run_two_res pk sched s.1 s.2 t2
  | false :: sched, db, t1, t2 =>
    let s := res_step pk db t2
    run_two_res pk sched s.1 t1 s.2

/-- Well-formedness of a database state, maintained by every handler:
autoincrement counters are positive, row ids are positive and below their
table's counter, and the id columns are strictly increasing in table
order (primary keys are unique). -/
def DBwf (db : DB) : Prop :=
  (∀ u ∈ db.users, 0 < u.id) ∧
  0 < db.next_user_id ∧
  0 < db.next_message_id ∧
  0 < db.next_hash_id ∧
  db.messages.Pairwise (fun a b => a.id < b.id) ∧
  (∀ m ∈ db.messages, m.id < db.next_message_id) ∧
  db.message_hashes.Pairwise (fun a b => a.id < b.id) ∧
  (∀ r ∈ db.message_hashes, 0 < r.id ∧ r.id < db.next_hash_id)

instance (db : DB) : Decidable (DBwf db) := by
  unfold DBwf
  infer_instance

/-- Number of stored messages addressed to one recipient. -/
def recip_msg_count (db : DB) (r : Nat) : Nat :=
  (db.messages.filter (fun m => m.recipient_id == r)).length

/-- Success test on a handler response. -/
def is_ok (e : Except ApiError Nat) : Bool :=
  match e with
  | .ok _ => true
  | .error _ => false

/-- Sequential execution of a batch of submissions to one recipient key:
each entry carries the sender key, the ciphertext and the timestamp of its
transaction.  Returns the final state and the list of responses. -/
def run_saves (hash : List Nat → Nat) (pick : List HashRow → Option HashRow)
    (rpk : String) (subs : List (String × List Nat × Nat)) (st : SState) :
    SState × List (Except ApiError Nat) :=
  match subs with
  | [] => (st, [])
  | (spk, ct, ts) :: rest =>
    let r := save_message hash pick false ts st spk rpk ct
    let q := run_saves hash pick rpk rest r.2
    (q.1, r.1 :: q.2)

/-- A concrete stand-in for the SHA-256 digest on concrete inputs. -/
def hash_demo : List Nat → Nat :=
  fun l => l.foldl (fun a b => 256 * a + b + 1) 0

/-- A small concrete database with two registered identities. -/
def demo_db : DB :=
  ⟨[⟨1, "alice"⟩, ⟨2, "bob"⟩], [], [], 3, 1, 1⟩

/-- The concrete database with an idle hub. -/
def demo_state : SState :=
  ⟨demo_db, ⟨[], []⟩⟩

/-- The concrete database with a long-poll waiter registered for bob
(id 2). -/
def demo_wait_state : SState :=
  ⟨demo_db, ⟨[2], [(2, [])]⟩⟩

/-- Fifty replay records for recipient 2 whose two oldest rows (ids 1 and
2) tie on `created_at`. -/
def c8_rows : List HashRow :=
  (List.range 50).map (fun i => ⟨i + 1, 2, 100 + i, if i < 2 then 0 else i⟩)

/-- A concrete database holding the fifty tied replay records. -/
def c8_db : DB :=
  ⟨[⟨1, "alice"⟩, ⟨2, "bob"⟩], [], c8_rows, 3, 1, 51⟩

/-- The tied-records database with an idle hub. -/
def c8_state : SState :=
  ⟨c8_db, ⟨[], []⟩⟩

/-- A concrete database in which bob (id 2) already accepted the message
with digest `hash_demo [7] = 8`, so resubmitting [7] to bob is a replay. -/
def c10_db : DB :=
  ⟨[⟨1, "alice"⟩, ⟨2, "bob"⟩], [⟨1, 1, 2, [7]⟩], [⟨1, 2, 8, 10⟩], 3, 2, 2⟩

/-- The replayed-message database with an idle hub. -/
def c10_state : SState :=
  ⟨c10_db, ⟨[], []⟩⟩

/-- The 55 distinct-content submissions of the replay-bound scenario:
one-byte ciphertexts [0] .. [54] with strictly increasing timestamps. -/
def c3_subs : List (String × List Nat × Nat) :=
  (List.range 55).map (fun i => ("alice", [i], 100 + i))

/-- A concrete message table for the history query: alice (id 1) is
involved in messages 1, 2 and 3 but not in message 4. -/
def c4_db : DB :=
  ⟨[⟨1, "alice"⟩, ⟨2, "bob"⟩],
   [⟨1, 1, 2, [7]⟩, ⟨2, 2, 1, [8]⟩, ⟨3, 1, 2, [9]⟩, ⟨4, 3, 3, [5]⟩],
   [], 3, 5, 1⟩

/-!
Theorems.  Helper lemmas come first, then the claim theorems.
-/

theorem find?_id_none (l : List MessageRow) (mid : Nat) (h : ∀ m ∈ l, m.id ≠ mid) :
    l.find? (fun m => m.id == mid) = none := by
  induction l with
  | nil => rfl
  | cons x xs ih =>
    have hx : (x.id == mid) = false := by
      have := h x (List.mem_cons_self x xs)
      simp [this]
    rw [List.find?_cons_of_neg _ (by simp [hx])]
    exact ih (fun m hm => h m (List.mem_cons_of_mem x hm))

theorem get_user_some_pos (db : DB) (pk : String) (uid : Nat) (hwf : DBwf db)
    (h : get_user db pk = some uid) : 0 < uid := by
  unfold get_user at h
  cases hf : db.users.find? (fun u => u.public_key == pk) with
  | none => rw [hf] at h; simp at h
  | some u =>
    rw [hf] at h
    simp at h
    rw [← h]
    exact hwf.1 u (List.mem_of_find?_eq_some hf)

theorem get_or_create_user_found (db : DB) (pk : String) (uid : Nat)
    (h : get_user db pk = some uid) (h0 : uid ≠ 0) :
    get_or_create_user db pk = (uid, db) := by
  simp [get_or_create_user, truthy, h, h0]

theorem get_or_create_user_frame (db : DB) (pk : String) :
    (get_or_create_user db pk).2.messages = db.messages ∧
    (get_or_create_user db pk).2.message_hashes = db.message_hashes ∧
    (get_or_create_user db pk).2.next_message_id = db.next_message_id ∧
    (get_or_create_user db pk).2.next_hash_id = db.next_hash_id := by
  unfold get_or_create_user
  split <;> simp

theorem get_user_goc_mono (db : DB) (pk pk2 : String) (u : Nat)
    (h : get_user db pk2 = some u) :
    get_user (get_or_create_user db pk).2 pk2 = some u := by
  unfold get_or_create_user
  split
  · exact h
  · unfold get_user at h ⊢
    simp only [List.find?_append]
    cases hf : db.users.find? (fun x => x.public_key == pk2) with
    | none => rw [hf] at h; simp at h
    | some row =>
      rw [hf] at h
      simp [Option.or]
      simpa using h

theorem get_or_create_user_resolves (db : DB) (pk : String) (hwf : DBwf db) :
    get_user (get_or_create_user db pk).2 pk = some (get_or_create_user db pk).1 ∧
    (get_or_create_user db pk).1 ≠ 0 := by
  unfold get_or_create_user
  split
  case isTrue htr =>
    cases hg : get_user db pk with
    | none => rw [hg] at htr; simp [truthy] at htr
    | some n =>
      rw [hg] at htr
      simp [truthy] at htr
      simp [hg, htr]
  case isFalse htr =>
    cases hg : get_user db pk with
    | some n =>
      have hpos := get_user_some_pos db pk n hwf hg
      rw [hg] at htr
      simp [truthy] at htr
      omega
    | none =>
      unfold get_user at hg ⊢
      constructor
      · cases hf : db.users.find? (fun x => x.public_key == pk) with
        | some row => rw [hf] at hg; simp at hg
        | none =>
          simp only [List.find?_append, hf, Option.none_or]
          simp [List.find?]
      · have := hwf.2.1
        simp
        omega

theorem DBwf_goc (db : DB) (pk : String) (hwf : DBwf db) :
    DBwf (get_or_create_user db pk).2 := by
  obtain ⟨h1, h2, h3, h4, h5, h6, h7, h8⟩ := hwf
  unfold get_or_create_user
  split
  · exact ⟨h1, h2, h3, h4, h5, h6, h7, h8⟩
  · refine ⟨?_, ?_, h3, h4, h5, h6, h7, h8⟩
    · intro u hu
      rcases List.mem_append.1 hu with hm | hm
      · exact h1 u hm
      · simp at hm
        rw [hm]
        exact h2
    · simp

theorem trim_frame (pick : List HashRow → Option HashRow) (db : DB) (recip : Nat) :
    (trim_hashes pick db recip).users = db.users ∧
    (trim_hashes pick db recip).messages = db.messages ∧
    (trim_hashes pick db recip).next_user_id = db.next_user_id ∧
    (trim_hashes pick db recip).next_message_id = db.next_message_id ∧
    (trim_hashes pick db recip).next_hash_id = db.next_hash_id := by
  unfold trim_hashes
  split
  · split
    · split <;> simp
    · simp
  · simp

theorem trim_hashes_cases (pick : List HashRow → Option HashRow) (db : DB) (recip : Nat) :
    (trim_hashes pick db recip).message_hashes = db.message_hashes ∨
    ∃ i, (trim_hashes pick db recip).message_hashes
        = db.message_hashes.filter (fun r => r.id != i) := by
  unfold trim_hashes
  split
  · split
    · split
      · exact Or.inr ⟨_, rfl⟩
      · exact Or.inl rfl
    · exact Or.inl rfl
  · exact Or.inl rfl

theorem tx_frame (pick : List HashRow → Option HashRow) (db : DB)
    (sender recip h ts : Nat) (ct : List Nat) :
    (tx_body pick db sender recip h ts ct).1 = db.next_message_id ∧
    (tx_body pick db sender recip h ts ct).2.users = db.users ∧
    (tx_body pick db sender recip h ts ct).2.messages
      = db.messages ++ [⟨db.next_message_id, sender, recip, ct⟩] ∧
    (tx_body pick db sender recip h ts ct).2.next_user_id = db.next_user_id ∧
    (tx_body pick db sender recip h ts ct).2.next_message_id = db.next_message_id + 1 ∧
    (tx_body pick db sender recip h ts ct).2.next_hash_id = db.next_hash_id + 1 := by
  obtain ⟨f1, f2, f3, f4, f5⟩ := trim_frame pick (tx_insert db sender recip h ts ct) recip
  exact ⟨rfl, f1, f2, f3, f4, f5⟩

theorem trim_hashes_noop (pick : List HashRow → Option HashRow) (db : DB) (recip : Nat)
    (hle : ¬ hash_count db recip > REPLAY_ATTACK_HASH_COUNT) :
    trim_hashes pick db recip = db := by
  unfold trim_hashes
  rw [if_neg hle]

theorem trim_hashes_picked (pick : List HashRow → Option HashRow) (db : DB) (recip : Nat)
    (r0 : HashRow) (hgt : hash_count db recip > REPLAY_ATTACK_HASH_COUNT)
    (hq : pick (filtered_hashes db recip) = some r0) (h0 : r0.id ≠ 0) :
    trim_hashes pick db recip
      = { db with message_hashes := db.message_hashes.filter (fun r => r.id != r0.id) } := by
  unfold trim_hashes
  rw [if_pos hgt, hq]
  simp [h0]

theorem filtered_tx_insert_self (db : DB) (sender recip h ts : Nat) (ct : List Nat) :
    filtered_hashes (tx_insert db sender recip h ts ct) recip
      = filtered_hashes db recip ++ [⟨db.next_hash_id, recip, h, ts⟩] := by
  unfold filtered_hashes tx_insert
  rw [List.filter_append]
  simp

theorem filtered_tx_insert_other (db : DB) (sender recip h ts r2 : Nat) (ct : List Nat)
    (hne : r2 ≠ recip) :
    filtered_hashes (tx_insert db sender recip h ts ct) r2 = filtered_hashes db r2 := by
  unfold filtered_hashes tx_insert
  rw [List.filter_append]
  simp
  omega

theorem hash_count_tx_insert (db : DB) (sender recip h ts : Nat) (ct : List Nat) :
    hash_count (tx_insert db sender recip h ts ct) recip = hash_count db recip + 1 := by
  unfold hash_count
  rw [filtered_tx_insert_self]
  simp

theorem tx_hashes_no_trim (pick : List HashRow → Option HashRow) (db : DB)
    (sender recip h ts : Nat) (ct : List Nat)
    (hc : hash_count db recip + 1 ≤ REPLAY_ATTACK_HASH_COUNT) :
    (tx_body pick db sender recip h ts ct).2
      = tx_insert db sender recip h ts ct := by
  unfold tx_body
  refine trim_hashes_noop pick _ recip ?_
  rw [hash_count_tx_insert]
  omega

theorem pairwise_ids_insert (db : DB) (sender recip h ts : Nat) (ct : List Nat)
    (hwf : DBwf db) :
    (tx_insert db sender recip h ts ct).message_hashes.Pairwise (fun a b => a.id < b.id) := by
  show (db.message_hashes ++ [(⟨db.next_hash_id, recip, h, ts⟩ : HashRow)]).Pairwise
      (fun a b => a.id < b.id)
  apply List.pairwise_append.2
  refine ⟨hwf.2.2.2.2.2.2.1, List.pairwise_singleton _ _, ?_⟩
  intro a ha b hb
  simp at hb
  rw [hb]
  exact (hwf.2.2.2.2.2.2.2 a ha).2

theorem tx_hashes_trim (pick : List HashRow → Option HashRow)
    (hp : ValidPick pick) (db : DB) (sender recip h ts : Nat) (ct : List Nat)
    (hwf : DBwf db) (r0 : HashRow) (L : List HashRow)
    (hL : filtered_hashes db recip = r0 :: L)
    (hmin : ∀ x ∈ L, r0.created_at < x.created_at)
    (hts : r0.created_at < ts)
    (hcount : REPLAY_ATTACK_HASH_COUNT ≤ (r0 :: L).length) :
    (tx_body pick db sender recip h ts ct).2.message_hashes
      = (db.message_hashes ++ [(⟨db.next_hash_id, recip, h, ts⟩ : HashRow)]).filter
          (fun x => x.id != r0.id) ∧
    filtered_hashes (tx_body pick db sender recip h ts ct).2 recip
      = L ++ [(⟨db.next_hash_id, recip, h, ts⟩ : HashRow)] := by
  have hfil : filtered_hashes (tx_insert db sender recip h ts ct) recip
      = (r0 :: L) ++ [⟨db.next_hash_id, recip, h, ts⟩] := by
    rw [filtered_tx_insert_self, hL]
  have hgt : hash_count (tx_insert db sender recip h ts ct) recip
      > REPLAY_ATTACK_HASH_COUNT := by
    unfold hash_count
    rw [hfil]
    simp at hcount ⊢
    omega
  cases hq : pick (filtered_hashes (tx_insert db sender recip h ts ct) recip) with
  | none =>
    have := (hp _).2 hq
    rw [hfil] at this
    simp at this
  | some q =>
    obtain ⟨hqmem, hqmin⟩ := (hp _).1 q hq
    have hr0mem : r0 ∈ filtered_hashes (tx_insert db sender recip h ts ct) recip := by
      rw [hfil]
      exact List.mem_append_left _ (List.mem_cons_self _ _)
    have hqr0 : q = r0 := by
      rw [hfil] at hqmem
      rcases List.mem_append.1 hqmem with hm | hm
      · rcases List.mem_cons.1 hm with he | hm2
        · exact he
        · have h1 := hmin q hm2
          have h2 := hqmin r0 hr0mem
          omega
      · simp at hm
        have h2 := hqmin r0 hr0mem
        rw [hm] at h2
        simp at h2
        omega
    subst hqr0
    have hr0db : q ∈ db.message_hashes := by
      have hmem : q ∈ filtered_hashes db recip := by
        rw [hL]
        exact List.mem_cons_self _ _
      exact (List.mem_filter.1 hmem).1
    have hr0pos : 0 < q.id := (hwf.2.2.2.2.2.2.2 q hr0db).1
    have htrim := trim_hashes_picked pick (tx_insert db sender recip h ts ct) recip q hgt hq
      (by omega)
    have hpw : (q :: (L ++ [(⟨db.next_hash_id, recip, h, ts⟩ : HashRow)])).Pairwise
        (fun a b => a.id < b.id) := by
      have := List.Pairwise.filter (fun r => r.recipient_id == recip)
        (pairwise_ids_insert db sender recip h ts ct hwf)
      have hfil2 : (tx_insert db sender recip h ts ct).message_hashes.filter
          (fun r => r.recipient_id == recip)
          = q :: (L ++ [(⟨db.next_hash_id, recip, h, ts⟩ : HashRow)]) := by
        rw [show (tx_insert db sender recip h ts ct).message_hashes.filter
            (fun r => r.recipient_id == recip)
            = filtered_hashes (tx_insert db sender recip h ts ct) recip from rfl, hfil]
        simp
      rwa [hfil2] at this
    have hql : ∀ x ∈ L ++ [(⟨db.next_hash_id, recip, h, ts⟩ : HashRow)], q.id < x.id :=
      (List.pairwise_cons.1 hpw).1
    constructor
    · unfold tx_body
      rw [htrim]
      rfl
    · unfold tx_body
      rw [htrim]
      show ((tx_insert db sender recip h ts ct).message_hashes.filter
          (fun r => r.id != q.id)).filter (fun r => r.recipient_id == recip)
        = L ++ [(⟨db.next_hash_id, recip, h, ts⟩ : HashRow)]
      rw [List.filter_filter]
      have hswap : (tx_insert db sender recip h ts ct).message_hashes.filter
          (fun a => (a.recipient_id == recip) && (a.id != q.id))
          = (filtered_hashes (tx_insert db sender recip h ts ct) recip).filter
              (fun a => a.id != q.id) := by
        unfold filtered_hashes
        rw [List.filter_filter]
        congr 1
        funext a
        exact Bool.and_comm _ _
      rw [hswap, hfil]
      have hhd : ((q : HashRow).id != q.id) = false := by simp
      rw [show (q :: L) ++ [(⟨db.next_hash_id, recip, h, ts⟩ : HashRow)]
          = q :: (L ++ [(⟨db.next_hash_id, recip, h, ts⟩ : HashRow)]) from rfl]
      rw [List.filter_cons_of_neg (by simp)]
      apply List.filter_eq_self.2
      intro a ha
      have := hql a ha
      simp
      omega

theorem tx_hashes_sub (pick : List HashRow → Option HashRow) (db : DB)
    (sender recip h ts : Nat) (ct : List Nat) :
    ∀ x ∈ (tx_body pick db sender recip h ts ct).2.message_hashes,
      x ∈ db.message_hashes ++ [(⟨db.next_hash_id, recip, h, ts⟩ : HashRow)] := by
  rcases trim_hashes_cases pick (tx_insert db sender recip h ts ct) recip with hc | ⟨i, hc⟩ <;>
    rw [show (tx_body pick db sender recip h ts ct).2.message_hashes
      = (trim_hashes pick (tx_insert db sender recip h ts ct) recip).message_hashes from rfl,
      hc]
  · intro x hx
    exact hx
  · intro x hx
    exact (List.mem_filter.1 hx).1

theorem tx_hashes_pairwise (pick : List HashRow → Option HashRow) (db : DB)
    (sender recip h ts : Nat) (ct : List Nat) (hwf : DBwf db) :
    (tx_body pick db sender recip h ts ct).2.message_hashes.Pairwise
      (fun a b => a.id < b.id) := by
  rcases trim_hashes_cases pick (tx_insert db sender recip h ts ct) recip with hc | ⟨i, hc⟩ <;>
    rw [show (tx_body pick db sender recip h ts ct).2.message_hashes
      = (trim_hashes pick (tx_insert db sender recip h ts ct) recip).message_hashes from rfl,
      hc]
  · exact pairwise_ids_insert db sender recip h ts ct hwf
  · exact List.Pairwise.filter _ (pairwise_ids_insert db sender recip h ts ct hwf)

theorem DBwf_tx (pick : List HashRow → Option HashRow) (db : DB)
    (sender recip h ts : Nat) (ct : List Nat) (hwf : DBwf db) :
    DBwf (tx_body pick db sender recip h ts ct).2 := by
  obtain ⟨f1, f2, f3, f4, f5, f6⟩ := tx_frame pick db sender recip h ts ct
  refine ⟨?_, ?_, ?_, ?_, ?_, ?_, ?_, ?_⟩
  · rw [f2]
    exact hwf.1
  · rw [f4]
    exact hwf.2.1
  · rw [f5]
    omega
  · rw [f6]
    omega
  · rw [f3]
    apply List.pairwise_append.2
    refine ⟨hwf.2.2.2.2.1, List.pairwise_singleton _ _, ?_⟩
    intro a ha b hb
    simp at hb
    rw [hb]
    exact hwf.2.2.2.2.2.1 a ha
  · rw [f3, f5]
    intro m hm
    rcases List.mem_append.1 hm with hm | hm
    · have := hwf.2.2.2.2.2.1 m hm
      omega
    · simp at hm
      rw [hm]
      simp
  · exact tx_hashes_pairwise pick db sender recip h ts ct hwf
  · intro r hr
    have hr2 := tx_hashes_sub pick db sender recip h ts ct r hr
    rw [f6]
    rcases List.mem_append.1 hr2 with hm | hm
    · have := hwf.2.2.2.2.2.2.2 r hm
      exact ⟨this.1, by omega⟩
    · simp at hm
      rw [hm]
      refine ⟨hwf.2.2.2.1, ?_⟩
      show db.next_hash_id < db.next_hash_id + 1
      omega

theorem length_filter_ne_of_mem (l : List HashRow) (q : HashRow)
    (hpw : l.Pairwise (fun a b => a.id < b.id)) (hq : q ∈ l) :
    (l.filter (fun r => r.id != q.id)).length + 1 = l.length := by
  induction l with
  | nil => cases hq
  | cons x xs ih =>
    rcases List.mem_cons.1 hq with he | hm
    · rw [he]
      rw [List.filter_cons_of_neg (by simp)]
      have hall : ∀ a ∈ xs, (a.id != x.id) = true := by
        intro a ha
        have := (List.pairwise_cons.1 hpw).1 a ha
        simp
        omega
      rw [List.filter_eq_self.2 hall]
      simp
    · have hpx := (List.pairwise_cons.1 hpw).1 q hm
      rw [List.filter_cons_of_pos (by simp; omega)]
      have := ih (List.pairwise_cons.1 hpw).2 hm
      simp only [List.length_cons]
      omega

theorem trim_hashes_cases_strong (pick : List HashRow → Option HashRow)
    (hp : ValidPick pick) (db : DB) (recip : Nat) :
    (trim_hashes pick db recip).message_hashes = db.message_hashes ∨
    (hash_count db recip > REPLAY_ATTACK_HASH_COUNT ∧
      ∃ q, q ∈ filtered_hashes db recip ∧
        (∀ x ∈ filtered_hashes db recip, q.created_at ≤ x.created_at) ∧
        (trim_hashes pick db recip).message_hashes
          = db.message_hashes.filter (fun r => r.id != q.id)) := by
  unfold trim_hashes
  split
  case isTrue hgt =>
    split
    · rename_i q hq
      obtain ⟨hmem, hminq⟩ := (hp _).1 q hq
      split
      · exact Or.inr ⟨hgt, q, hmem, hminq, rfl⟩
      · exact Or.inl rfl
    · exact Or.inl rfl
  case isFalse hle => exact Or.inl rfl

theorem new_hash_survives_trim (pick : List HashRow → Option HashRow)
    (hp : ValidPick pick) (db : DB) (sender recip h ts : Nat) (ct : List Nat)
    (hwf : DBwf db)
    (hclock : ∀ x ∈ filtered_hashes db recip, x.created_at < ts) :
    (⟨db.next_hash_id, recip, h, ts⟩ : HashRow)
      ∈ (tx_body pick db sender recip h ts ct).2.message_hashes := by
  rcases trim_hashes_cases_strong pick hp (tx_insert db sender recip h ts ct) recip with
    hc | ⟨hgt, q, hqmem, hqmin, hc⟩ <;>
    rw [show (tx_body pick db sender recip h ts ct).2.message_hashes
      = (trim_hashes pick (tx_insert db sender recip h ts ct) recip).message_hashes from rfl,
      hc]
  · show _ ∈ db.message_hashes ++ [(⟨db.next_hash_id, recip, h, ts⟩ : HashRow)]
    exact List.mem_append_right _ (List.mem_singleton.2 rfl)
  · apply List.mem_filter.2
    constructor
    · show _ ∈ db.message_hashes ++ [(⟨db.next_hash_id, recip, h, ts⟩ : HashRow)]
      exact List.mem_append_right _ (List.mem_singleton.2 rfl)
    · have hfil := filtered_tx_insert_self db sender recip h ts ct
      rw [hfil] at hqmem hqmin
      have hc2 : hash_count (tx_insert db sender recip h ts ct) recip
          = hash_count db recip + 1 := hash_count_tx_insert db sender recip h ts ct
      have hne : filtered_hashes db recip ≠ [] := by
        intro he
        unfold hash_count at hgt hc2
        rw [he] at hc2
        simp at hc2
        rw [hc2] at hgt
        unfold REPLAY_ATTACK_HASH_COUNT at hgt
        omega
      obtain ⟨o, ho⟩ := List.exists_mem_of_ne_nil _ hne
      have hots : o.created_at < ts := hclock o ho
      have hqts : q.created_at < ts := by
        have := hqmin o (List.mem_append_left _ ho)
        omega
      rcases List.mem_append.1 hqmem with hm | hm
      · have hqdb : q ∈ db.message_hashes := (List.mem_filter.1 hm).1
        have := (hwf.2.2.2.2.2.2.2 q hqdb).2
        simp
        omega
      · simp at hm
        rw [hm] at hqts
        simp at hqts

theorem replay_hit_iff (db : DB) (recip h : Nat) :
    replay_hit db recip h = true
      ↔ ∃ r ∈ db.message_hashes, r.recipient_id = recip ∧ r.message_hash = h := by
  unfold replay_hit
  simp [List.any_eq_true]

theorem save_message_eq (hash : List Nat → Nat) (pick : List HashRow → Option HashRow)
    (nf : Bool) (ts : Nat) (st : SState) (spk rpk : String) (ct : List Nat)
    (s r : Nat) (db2 : DB)
    (hs : (get_or_create_user st.db spk).1 = s)
    (hres : get_or_create_user (get_or_create_user st.db spk).2 rpk = (r, db2))
    (hct : ¬ ct = []) :
    save_message hash pick nf ts st spk rpk ct
      = if replay_hit db2 r (hash ct) then (.error .conflict, ⟨db2, st.hub⟩)
        else
          match notify nf st.hub (tx_body pick db2 s r (hash ct) ts ct).2 r
              (tx_body pick db2 s r (hash ct) ts ct).1 with
          | .ok hub2 =>
            (.ok (tx_body pick db2 s r (hash ct) ts ct).1,
             ⟨(tx_body pick db2 s r (hash ct) ts ct).2, hub2⟩)
          | .error e =>
            (.error e, ⟨(tx_body pick db2 s r (hash ct) ts ct).2, st.hub⟩) := by
  have hr : (get_or_create_user (get_or_create_user st.db spk).2 rpk).1 = r := by
    rw [hres]
  have hdb : (get_or_create_user (get_or_create_user st.db spk).2 rpk).2 = db2 := by
    rw [hres]
  rw [← hr, ← hdb, ← hs]
  unfold save_message
  rw [if_neg hct]

theorem notify_absent (nf : Bool) (hub : Hub) (db : DB) (recip mid : Nat)
    (hmem : recip ∉ hub.waiting) :
    notify nf hub db recip mid = .ok hub := by
  unfold notify
  rw [if_neg hmem]

theorem notify_present (hub : Hub) (db : DB) (recip mid : Nat) (row : MessageRow)
    (hmem : recip ∈ hub.waiting)
    (hfind : db.messages.find? (fun m => m.id == mid) = some row) :
    notify false hub db recip mid
      = .ok { hub with
               new_messages := buf_set hub.new_messages recip
                 ((buf_lookup hub.new_messages recip).getD [] ++ [row]) } := by
  unfold notify
  rw [if_pos hmem, if_neg (by simp), hfind]

theorem notify_fails_present (hub : Hub) (db : DB) (recip mid : Nat)
    (hmem : recip ∈ hub.waiting) :
    notify true hub db recip mid = .error .serverError := by
  unfold notify
  rw [if_pos hmem, if_pos (by simp)]

theorem tx_find_new (pick : List HashRow → Option HashRow) (db2 : DB)
    (s r : Nat) (h ts : Nat) (ct : List Nat) (hwf2 : DBwf db2) :
    (tx_body pick db2 s r h ts ct).2.messages.find?
      (fun m => m.id == (tx_body pick db2 s r h ts ct).1)
      = some ⟨db2.next_message_id, s, r, ct⟩ := by
  obtain ⟨f1, _, f3, _, _, _⟩ := tx_frame pick db2 s r h ts ct
  rw [f3, f1]
  rw [List.find?_append]
  rw [find?_id_none _ _ (fun m hm => by
    have := hwf2.2.2.2.2.2.1 m hm
    omega)]
  simp [List.find?]

theorem save_message_accepted (hash : List Nat → Nat) (pick : List HashRow → Option HashRow)
    (ts : Nat) (st : SState) (spk rpk : String) (ct : List Nat) (s r : Nat) (db2 : DB)
    (hs : (get_or_create_user st.db spk).1 = s)
    (hres : get_or_create_user (get_or_create_user st.db spk).2 rpk = (r, db2))
    (hct : ¬ ct = [])
    (hfresh : replay_hit db2 r (hash ct) = false)
    (hwf2 : DBwf db2) :
    (save_message hash pick false ts st spk rpk ct).1 = Except.ok db2.next_message_id ∧
    (save_message hash pick false ts st spk rpk ct).2.db
      = (tx_body pick db2 s r (hash ct) ts ct).2 ∧
    (r ∈ st.hub.waiting →
      (save_message hash pick false ts st spk rpk ct).2.hub
        = { st.hub with
             new_messages := buf_set st.hub.new_messages r
               ((buf_lookup st.hub.new_messages r).getD []
                 ++ [⟨db2.next_message_id, s, r, ct⟩]) }) ∧
    (r ∉ st.hub.waiting →
      (save_message hash pick false ts st spk rpk ct).2.hub = st.hub) := by
  rw [save_message_eq hash pick false ts st spk rpk ct s r db2 hs hres hct]
  rw [if_neg (by rw [hfresh]; exact Bool.false_ne_true)]
  by_cases hmem : r ∈ st.hub.waiting
  · rw [notify_present st.hub (tx_body pick db2 s r (hash ct) ts ct).2 r
      (tx_body pick db2 s r (hash ct) ts ct).1 ⟨db2.next_message_id, s, r, ct⟩ hmem
      (tx_find_new pick db2 s r (hash ct) ts ct hwf2)]
    refine ⟨?_, rfl, fun _ => rfl, fun hn => absurd hmem hn⟩
    show Except.ok (tx_body pick db2 s r (hash ct) ts ct).1 = Except.ok db2.next_message_id
    rw [(tx_frame pick db2 s r (hash ct) ts ct).1]
  · rw [notify_absent false st.hub (tx_body pick db2 s r (hash ct) ts ct).2 r
      (tx_body pick db2 s r (hash ct) ts ct).1 hmem]
    refine ⟨?_, rfl, fun hn => absurd hn hmem, fun _ => rfl⟩
    show Except.ok (tx_body pick db2 s r (hash ct) ts ct).1 = Except.ok db2.next_message_id
    rw [(tx_frame pick db2 s r (hash ct) ts ct).1]

theorem notify_error_shape (nf : Bool) (hub : Hub) (db : DB) (recip mid : Nat)
    (e : ApiError) (h : notify nf hub db recip mid = .error e) : e = .serverError := by
  unfold notify at h
  split at h
  · split at h
    · injection h with h2
      exact h2.symm
    · split at h
      · simp at h
      · injection h with h2
        exact h2.symm
  · simp at h

theorem save_message_ok_elim (hash : List Nat → Nat) (pick : List HashRow → Option HashRow)
    (nf : Bool) (ts : Nat) (st : SState) (spk rpk : String) (ct : List Nat) (mid : Nat)
    (h : (save_message hash pick nf ts st spk rpk ct).1 = .ok mid) :
    ¬ ct = [] ∧
    replay_hit (get_or_create_user (get_or_create_user st.db spk).2 rpk).2
      (get_or_create_user (get_or_create_user st.db spk).2 rpk).1 (hash ct) = false := by
  by_cases hct : ct = []
  · unfold save_message at h
    rw [if_pos hct] at h
    simp at h
  · refine ⟨hct, ?_⟩
    rw [save_message_eq hash pick nf ts st spk rpk ct
      (get_or_create_user st.db spk).1
      (get_or_create_user (get_or_create_user st.db spk).2 rpk).1
      (get_or_create_user (get_or_create_user st.db spk).2 rpk).2 rfl rfl hct] at h
    by_cases hhit : replay_hit (get_or_create_user (get_or_create_user st.db spk).2 rpk).2
        (get_or_create_user (get_or_create_user st.db spk).2 rpk).1 (hash ct) = true
    · rw [if_pos hhit] at h
      simp at h
    · simpa using hhit

theorem save_message_conflict_elim (hash : List Nat → Nat)
    (pick : List HashRow → Option HashRow) (nf : Bool) (ts : Nat) (st : SState)
    (spk rpk : String) (ct : List Nat)
    (h : (save_message hash pick nf ts st spk rpk ct).1 = .error .conflict) :
    ¬ ct = [] ∧
    (save_message hash pick nf ts st spk rpk ct).2
      = ⟨(get_or_create_user (get_or_create_user st.db spk).2 rpk).2, st.hub⟩ := by
  by_cases hct : ct = []
  · unfold save_message at h
    rw [if_pos hct] at h
    simp at h
  · refine ⟨hct, ?_⟩
    have heq := save_message_eq hash pick nf ts st spk rpk ct
      (get_or_create_user st.db spk).1
      (get_or_create_user (get_or_create_user st.db spk).2 rpk).1
      (get_or_create_user (get_or_create_user st.db spk).2 rpk).2 rfl rfl hct
    rw [heq] at h ⊢
    by_cases hhit : replay_hit (get_or_create_user (get_or_create_user st.db spk).2 rpk).2
        (get_or_create_user (get_or_create_user st.db spk).2 rpk).1 (hash ct) = true
    · rw [if_pos hhit]
    · rw [if_neg hhit] at h
      cases hn : notify nf st.hub
          (tx_body pick (get_or_create_user (get_or_create_user st.db spk).2 rpk).2
            (get_or_create_user st.db spk).1
            (get_or_create_user (get_or_create_user st.db spk).2 rpk).1 (hash ct) ts ct).2
          (get_or_create_user (get_or_create_user st.db spk).2 rpk).1
          (tx_body pick (get_or_create_user (get_or_create_user st.db spk).2 rpk).2
            (get_or_create_user st.db spk).1
            (get_or_create_user (get_or_create_user st.db spk).2 rpk).1 (hash ct) ts ct).1 with
      | ok hub2 =>
        rw [hn] at h
        simp at h
      | error e =>
        rw [hn] at h
        have he2 := notify_error_shape nf st.hub _ _ _ e hn
        rw [he2] at h
        simp at h

theorem DBwf_save (hash : List Nat → Nat) (pick : List HashRow → Option HashRow)
    (nf : Bool) (ts : Nat) (st : SState) (spk rpk : String) (ct : List Nat)
    (hwf : DBwf st.db) :
    DBwf (save_message hash pick nf ts st spk rpk ct).2.db := by
  by_cases hct : ct = []
  · unfold save_message
    rw [if_pos hct]
    exact hwf
  · have hwf2 : DBwf (get_or_create_user (get_or_create_user st.db spk).2 rpk).2 :=
      DBwf_goc _ _ (DBwf_goc _ _ hwf)
    rw [save_message_eq hash pick nf ts st spk rpk ct
      (get_or_create_user st.db spk).1
      (get_or_create_user (get_or_create_user st.db spk).2 rpk).1
      (get_or_create_user (get_or_create_user st.db spk).2 rpk).2 rfl rfl hct]
    split
    · exact hwf2
    · split
      · exact DBwf_tx _ _ _ _ _ _ _ hwf2
      · exact DBwf_tx _ _ _ _ _ _ _ hwf2

/-- C1: the claim asserts that the replay-guard lookup and record are not
separable from the message append by an interleaved identical submission,
so at most one of two simultaneous identical submissions can commit.  In
the code the duplicate lookup (main.py lines 70-76) is a database round
trip completed before the transaction of lines 79-107 begins, so under the
schedule in which both lookups run before either transaction both
submissions pass the check and both commit: two messages with identical
ciphertext for recipient 2 are stored and both requests report success. -/
theorem c1_both_identical_submissions_commit :
    (run_two hash_demo pick_first 10 11 1 2 [7] [true, false, true, false] demo_db
        sub_start sub_start).2.1.result = some (Except.ok 1) ∧
    (run_two hash_demo pick_first 10 11 1 2 [7] [true, false, true, false] demo_db
        sub_start sub_start).2.2.result = some (Except.ok 2) ∧
    (run_two hash_demo pick_first 10 11 1 2 [7] [true, false, true, false] demo_db
        sub_start sub_start).1.messages
      = [⟨1, 1, 2, [7]⟩, ⟨2, 1, 2, [7]⟩] :=
  ⟨rfl, rfl, rfl⟩

/-- C5: the claim asserts that a failure in the post-commit notification
step never causes the submission to report failure.  In the code the
notification block (main.py lines 109-117) re-reads the stored message
inside the catch-all of lines 123-124, so when that read fails after the
transaction has committed the handler answers 500: here the submission
reports a server error even though the message is durably stored. -/
theorem c5_notify_failure_fails_submission :
    (save_message hash_demo pick_first true 10 demo_wait_state "alice" "bob" [7]).1
      = Except.error ApiError.serverError ∧
    (save_message hash_demo pick_first true 10 demo_wait_state "alice" "bob" [7]).2.db.messages
      = [⟨1, 1, 2, [7]⟩] :=
  ⟨rfl, rfl⟩

/-- C7: the claim asserts that the loser of a concurrent first-time
resolution race re-reads and returns the winner's id.  In the code
get_or_create_user (main.py lines 41-47) does not catch the insert's
unique-constraint violation, so under the schedule in which both lookups
miss before either insert, the second insert fails and the violation
propagates as an error; the table still holds a single row for the key. -/
theorem c7_losing_insert_propagates_error :
    (run_two_res "carol" [true, false, true, false] demo_db res_start res_start).2.2.result
      = some (Except.error ()) ∧
    (run_two_res "carol" [true, false, true, false] demo_db res_start res_start).2.1.result
      = some (Except.ok 3) ∧
    (run_two_res "carol" [true, false, true, false] demo_db res_start res_start).1.users
      = [⟨1, "alice"⟩, ⟨2, "bob"⟩, ⟨3, "carol"⟩] :=
  ⟨rfl, rfl, rfl⟩

/-- C9: for a public key never seen by the system, the history request
answers 200 with an empty list (main.py lines 182-184) while the live-poll
request answers 404 (main.py lines 134-136). -/
theorem c9_unknown_identity (st : SState) (pk : String) (s u : Option Nat) (lim : Nat)
    (h : get_user st.db pk = none) (hsu : ¬(s.isSome ∧ u.isSome)) :
    get_messages st.db pk s u lim = .ok [] ∧ poll_begin st pk = PollStart.notFound := by
  have hb : (s.isSome && u.isSome) = false := by
    cases s <;> cases u <;> simp_all
  constructor
  · simp [get_messages, hb, truthy, h]
  · simp [poll_begin, truthy, h]

/-- Witness for C9: the key carol is unknown to the concrete database. -/
theorem c9_witness :
    get_user demo_state.db "carol" = none ∧
    ¬((none : Option Nat).isSome ∧ (none : Option Nat).isSome) ∧
    (get_messages demo_state.db "carol" none none 5 = .ok [] ∧
      poll_begin demo_state "carol" = PollStart.notFound) :=
  ⟨by decide, by simp,
   c9_unknown_identity demo_state "carol" none none 5 (by decide) (by simp)⟩

/-- C10: when a submit is rejected as a duplicate, the identities created
while resolving the sender and recipient keys (main.py lines 66-68, which
run before the replay check of lines 70-76) remain persisted: the
resulting database is exactly the post-resolution database, the message
and hash tables are untouched, and both keys now resolve to truthy ids. -/
theorem c10_identities_persist (hash : List Nat → Nat) (pick : List HashRow → Option HashRow)
    (nf : Bool) (ts : Nat) (st : SState) (spk rpk : String) (ct : List Nat)
    (hwf : DBwf st.db)
    (h : (save_message hash pick nf ts st spk rpk ct).1 = .error .conflict) :
    (save_message hash pick nf ts st spk rpk ct).2.db
      = (get_or_create_user (get_or_create_user st.db spk).2 rpk).2 ∧
    (save_message hash pick nf ts st spk rpk ct).2.db.messages = st.db.messages ∧
    (save_message hash pick nf ts st spk rpk ct).2.db.message_hashes
      = st.db.message_hashes ∧
    truthy (get_user (save_message hash pick nf ts st spk rpk ct).2.db spk) = true ∧
    truthy (get_user (save_message hash pick nf ts st spk rpk ct).2.db rpk) = true := by
  obtain ⟨hct, hstate⟩ := save_message_conflict_elim hash pick nf ts st spk rpk ct h
  have hdb : (save_message hash pick nf ts st spk rpk ct).2.db
      = (get_or_create_user (get_or_create_user st.db spk).2 rpk).2 := by
    rw [hstate]
  obtain ⟨g1, g2, _, _⟩ := get_or_create_user_frame st.db spk
  obtain ⟨g1b, g2b, _, _⟩ :=
    get_or_create_user_frame (get_or_create_user st.db spk).2 rpk
  have hwf1 : DBwf (get_or_create_user st.db spk).2 := DBwf_goc _ _ hwf
  obtain ⟨hres_s, hpos_s⟩ := get_or_create_user_resolves st.db spk hwf
  obtain ⟨hres_r, hpos_r⟩ :=
    get_or_create_user_resolves (get_or_create_user st.db spk).2 rpk hwf1
  have hs2 : get_user (get_or_create_user (get_or_create_user st.db spk).2 rpk).2 spk
      = some (get_or_create_user st.db spk).1 :=
    get_user_goc_mono _ rpk spk _ hres_s
  refine ⟨hdb, ?_, ?_, ?_, ?_⟩
  · rw [hdb, g1b, g1]
  · rw [hdb, g2b, g2]
  · rw [hdb, hs2]
    simp [truthy, hpos_s]
  · rw [hdb, hres_r]
    simp [truthy, hpos_r]

/-- Witness for C10: resubmitting ciphertext [7] to bob from the fresh
sender key dave is rejected as a duplicate, and dave's new identity row
survives the rejection. -/
theorem c10_witness :
    DBwf c10_state.db ∧
    (save_message hash_demo pick_first false 11 c10_state "dave" "bob" [7]).1
      = .error .conflict ∧
    ((save_message hash_demo pick_first false 11 c10_state "dave" "bob" [7]).2.db
        = (get_or_create_user (get_or_create_user c10_state.db "dave").2 "bob").2 ∧
      (save_message hash_demo pick_first false 11 c10_state "dave" "bob" [7]).2.db.messages
        = c10_state.db.messages ∧
      (save_message hash_demo pick_first false 11 c10_state "dave" "bob" [7]).2.db.message_hashes
        = c10_state.db.message_hashes ∧
      truthy (get_user (save_message hash_demo pick_first false 11 c10_state "dave" "bob" [7]).2.db
          "dave") = true ∧
      truthy (get_user (save_message hash_demo pick_first false 11 c10_state "dave" "bob" [7]).2.db
          "bob") = true) :=
  ⟨by decide, rfl,
   c10_identities_persist hash_demo pick_first false 11 c10_state "dave" "bob" [7]
     (by decide) rfl⟩
theorem get_user_congr (dbA dbB : DB) (pk : String) (h : dbA.users = dbB.users) :
    get_user dbA pk = get_user dbB pk := by
  unfold get_user
  rw [h]

theorem recip_msg_count_congr (dbA dbB : DB) (r : Nat)
    (h : dbA.messages = dbB.messages) :
    recip_msg_count dbA r = recip_msg_count dbB r := by
  unfold recip_msg_count
  rw [h]

theorem recip_msg_count_append (db : DB) (l : List MessageRow) (row : MessageRow) (r : Nat)
    (hdb : db.messages = l ++ [row]) (hR : row.recipient_id = r) :
    recip_msg_count db r = (l.filter (fun m => m.recipient_id == r)).length + 1 := by
  unfold recip_msg_count
  rw [hdb, List.filter_append]
  simp [hR]

/-- C2: submitting identical non-empty ciphertext twice in a row to the
same recipient succeeds with a message id and is then rejected with 409:
the first submit records the digest inside the transaction, the second
submit finds it in the replay lookup of main.py lines 70-76.  The rejected
submission stores no message and the recipient's stored-message count
rises by exactly one over the pair.  Hypotheses: the content is not
already recorded for the recipient, and the recipient's retained replay
records predate the first submission's transaction timestamp (a monotone
clock). -/
theorem c2_duplicate_second_rejected (hash : List Nat → Nat)
    (pick : List HashRow → Option HashRow) (hpick : ValidPick pick)
    (ts1 ts2 : Nat) (st : SState) (spk rpk : String) (ct : List Nat)
    (hwf : DBwf st.db) (hct : ¬ ct = [])
    (hfresh : replay_hit (get_or_create_user (get_or_create_user st.db spk).2 rpk).2
        (get_or_create_user (get_or_create_user st.db spk).2 rpk).1 (hash ct) = false)
    (hclock : ∀ x ∈ filtered_hashes (get_or_create_user (get_or_create_user st.db spk).2 rpk).2
        (get_or_create_user (get_or_create_user st.db spk).2 rpk).1,
        x.created_at < ts1) :
    (save_message hash pick false ts1 st spk rpk ct).1 = .ok st.db.next_message_id ∧
    (save_message hash pick false ts2 (save_message hash pick false ts1 st spk rpk ct).2
        spk rpk ct).1 = .error .conflict ∧
    (save_message hash pick false ts2 (save_message hash pick false ts1 st spk rpk ct).2
        spk rpk ct).2.db.messages
      = (save_message hash pick false ts1 st spk rpk ct).2.db.messages ∧
    recip_msg_count
        (save_message hash pick false ts2 (save_message hash pick false ts1 st spk rpk ct).2
          spk rpk ct).2.db
        (get_or_create_user (get_or_create_user st.db spk).2 rpk).1
      = recip_msg_count st.db
          (get_or_create_user (get_or_create_user st.db spk).2 rpk).1 + 1 := by
  have hwf1 : DBwf (get_or_create_user st.db spk).2 := DBwf_goc _ _ hwf
  have hwf2 : DBwf (get_or_create_user (get_or_create_user st.db spk).2 rpk).2 :=
    DBwf_goc _ _ hwf1
  obtain ⟨hres_s, hpos_s⟩ := get_or_create_user_resolves st.db spk hwf
  obtain ⟨hres_r, hpos_r⟩ :=
    get_or_create_user_resolves (get_or_create_user st.db spk).2 rpk hwf1
  have hs2 : get_user (get_or_create_user (get_or_create_user st.db spk).2 rpk).2 spk
      = some (get_or_create_user st.db spk).1 :=
    get_user_goc_mono _ rpk spk _ hres_s
  obtain ⟨acc1, accdb, _, _⟩ := save_message_accepted hash pick ts1 st spk rpk ct
    (get_or_create_user st.db spk).1
    (get_or_create_user (get_or_create_user st.db spk).2 rpk).1
    (get_or_create_user (get_or_create_user st.db spk).2 rpk).2 rfl rfl hct hfresh hwf2
  obtain ⟨g1, g2, g3, g4⟩ := get_or_create_user_frame st.db spk
  obtain ⟨g1b, g2b, g3b, g4b⟩ :=
    get_or_create_user_frame (get_or_create_user st.db spk).2 rpk
  obtain ⟨f1, f2, f3, f4, f5, f6⟩ := tx_frame pick
    (get_or_create_user (get_or_create_user st.db spk).2 rpk).2
    (get_or_create_user st.db spk).1
    (get_or_create_user (get_or_create_user st.db spk).2 rpk).1 (hash ct) ts1 ct
  have hmid : (get_or_create_user (get_or_create_user st.db spk).2 rpk).2.next_message_id
      = st.db.next_message_id := by
    rw [g3b, g3]
  have husers : (save_message hash pick false ts1 st spk rpk ct).2.db.users
      = (get_or_create_user (get_or_create_user st.db spk).2 rpk).2.users := by
    rw [accdb, f2]
  have hmsgs : (save_message hash pick false ts1 st spk rpk ct).2.db.messages
      = (get_or_create_user (get_or_create_user st.db spk).2 rpk).2.messages
        ++ [⟨(get_or_create_user (get_or_create_user st.db spk).2 rpk).2.next_message_id,
              (get_or_create_user st.db spk).1,
              (get_or_create_user (get_or_create_user st.db spk).2 rpk).1, ct⟩] := by
    rw [accdb, f3]
  have hu_s : get_user (save_message hash pick false ts1 st spk rpk ct).2.db spk
      = some (get_or_create_user st.db spk).1 := by
    rw [get_user_congr _ _ spk husers]
    exact hs2
  have hu_r : get_user (save_message hash pick false ts1 st spk rpk ct).2.db rpk
      = some (get_or_create_user (get_or_create_user st.db spk).2 rpk).1 := by
    rw [get_user_congr _ _ rpk husers]
    exact hres_r
  have hgoc_s : get_or_create_user (save_message hash pick false ts1 st spk rpk ct).2.db spk
      = ((get_or_create_user st.db spk).1,
         (save_message hash pick false ts1 st spk rpk ct).2.db) :=
    get_or_create_user_found _ spk _ hu_s hpos_s
  have hgoc_r : get_or_create_user (save_message hash pick false ts1 st spk rpk ct).2.db rpk
      = ((get_or_create_user (get_or_create_user st.db spk).2 rpk).1,
         (save_message hash pick false ts1 st spk rpk ct).2.db) :=
    get_or_create_user_found _ rpk _ hu_r hpos_r
  have hrowmem : (⟨(get_or_create_user (get_or_create_user st.db spk).2 rpk).2.next_hash_id,
      (get_or_create_user (get_or_create_user st.db spk).2 rpk).1, hash ct, ts1⟩ : HashRow)
      ∈ (save_message hash pick false ts1 st spk rpk ct).2.db.message_hashes := by
    rw [accdb]
    exact new_hash_survives_trim pick hpick _ _ _ (hash ct) ts1 ct hwf2 hclock
  have hhit : replay_hit (save_message hash pick false ts1 st spk rpk ct).2.db
      (get_or_create_user (get_or_create_user st.db spk).2 rpk).1 (hash ct) = true :=
    (replay_hit_iff _ _ _).2 ⟨_, hrowmem, rfl, rfl⟩
  have heq2 := save_message_eq hash pick false ts2
    (save_message hash pick false ts1 st spk rpk ct).2 spk rpk ct
    (get_or_create_user st.db spk).1
    (get_or_create_user (get_or_create_user st.db spk).2 rpk).1
    (save_message hash pick false ts1 st spk rpk ct).2.db
    (by rw [hgoc_s]) (by rw [hgoc_s, hgoc_r]) hct
  refine ⟨by rw [acc1, hmid], ?_, ?_, ?_⟩
  · rw [heq2, if_pos hhit]
  · rw [heq2, if_pos hhit]
  · rw [heq2, if_pos hhit]
    rw [show ((Except.error ApiError.conflict,
        (⟨(save_message hash pick false ts1 st spk rpk ct).2.db,
          (save_message hash pick false ts1 st spk rpk ct).2.hub⟩ : SState)) :
        Except ApiError Nat × SState).2.db
      = (save_message hash pick false ts1 st spk rpk ct).2.db from rfl]
    rw [recip_msg_count_append _ _ _ _ hmsgs rfl]
    rw [show (get_or_create_user (get_or_create_user st.db spk).2 rpk).2.messages
      = st.db.messages from by rw [g1b, g1]]
    rfl

/-- The first-minimal resolution satisfies the oldest-row query
contract. -/
theorem valid_pick_first : ValidPick pick_first := by
  intro l
  induction l with
  | nil =>
    exact ⟨fun r h => by simp [pick_first] at h, fun _ => rfl⟩
  | cons x xs ih =>
    constructor
    · intro r hr
      unfold pick_first at hr
      cases hx : pick_first xs with
      | none =>
        rw [hx] at hr
        have hxs : xs = [] := ih.2 hx
        injection hr with hr
        subst hr
        subst hxs
        exact ⟨List.mem_cons_self _ _, by intro r2 h2; simp at h2; rw [h2]⟩
      | some r2 =>
        rw [hx] at hr
        simp only [] at hr
        obtain ⟨hmem2, hmin2⟩ := ih.1 r2 hx
        by_cases hle : x.created_at ≤ r2.created_at
        · rw [if_pos hle] at hr
          injection hr with hr
          subst hr
          refine ⟨List.mem_cons_self _ _, ?_⟩
          intro y hy
          rcases List.mem_cons.1 hy with he | hm
          · rw [he]
          · exact le_trans hle (hmin2 y hm)
        · rw [if_neg hle] at hr
          injection hr with hr
          subst hr
          refine ⟨List.mem_cons_of_mem _ hmem2, ?_⟩
          intro y hy
          rcases List.mem_cons.1 hy with he | hm
          · rw [he]
            omega
          · exact hmin2 y hm
    · intro hnone
      unfold pick_first at hnone
      cases hx : pick_first xs with
      | none =>
        rw [hx] at hnone
        simp at hnone
      | some r2 =>
        rw [hx] at hnone
        simp only [] at hnone
        by_cases hle : x.created_at ≤ r2.created_at
        · rw [if_pos hle] at hnone
          simp at hnone
        · rw [if_neg hle] at hnone
          simp at hnone

/-- The last-minimal resolution satisfies the oldest-row query
contract. -/
theorem valid_pick_last : ValidPick pick_last := by
  intro l
  induction l with
  | nil =>
    exact ⟨fun r h => by simp [pick_last] at h, fun _ => rfl⟩
  | cons x xs ih =>
    constructor
    · intro r hr
      unfold pick_last at hr
      cases hx : pick_last xs with
      | none =>
        rw [hx] at hr
        have hxs : xs = [] := ih.2 hx
        injection hr with hr
        subst hr
        subst hxs
        exact ⟨List.mem_cons_self _ _, by intro r2 h2; simp at h2; rw [h2]⟩
      | some r2 =>
        rw [hx] at hr
        simp only [] at hr
        obtain ⟨hmem2, hmin2⟩ := ih.1 r2 hx
        by_cases hle : r2.created_at ≤ x.created_at
        · rw [if_pos hle] at hr
          injection hr with hr
          subst hr
          refine ⟨List.mem_cons_of_mem _ hmem2, ?_⟩
          intro y hy
          rcases List.mem_cons.1 hy with he | hm
          · rw [he]
            exact hle
          · exact hmin2 y hm
        · rw [if_neg hle] at hr
          injection hr with hr
          subst hr
          refine ⟨List.mem_cons_self _ _, ?_⟩
          intro y hy
          rcases List.mem_cons.1 hy with he | hm
          · rw [he]
          · have := hmin2 y hm
            omega
    · intro hnone
      unfold pick_last at hnone
      cases hx : pick_last xs with
      | none =>
        rw [hx] at hnone
        simp at hnone
      | some r2 =>
        rw [hx] at hnone
        simp only [] at hnone
        by_cases hle : r2.created_at ≤ x.created_at
        · rw [if_pos hle] at hnone
          simp at hnone
        · rw [if_neg hle] at hnone
          simp at hnone

/-- Witness for C2: alice submits [7] to bob twice against the concrete
two-user database. -/
theorem c2_witness :
    (save_message hash_demo pick_first false 10 demo_state "alice" "bob" [7]).1
      = .ok demo_state.db.next_message_id ∧
    (save_message hash_demo pick_first false 11
        (save_message hash_demo pick_first false 10 demo_state "alice" "bob" [7]).2
        "alice" "bob" [7]).1 = .error .conflict ∧
    (save_message hash_demo pick_first false 11
        (save_message hash_demo pick_first false 10 demo_state "alice" "bob" [7]).2
        "alice" "bob" [7]).2.db.messages
      = (save_message hash_demo pick_first false 10 demo_state "alice" "bob" [7]).2.db.messages ∧
    recip_msg_count
        (save_message hash_demo pick_first false 11
          (save_message hash_demo pick_first false 10 demo_state "alice" "bob" [7]).2
          "alice" "bob" [7]).2.db
        (get_or_create_user (get_or_create_user demo_state.db "alice").2 "bob").1
      = recip_msg_count demo_state.db
          (get_or_create_user (get_or_create_user demo_state.db "alice").2 "bob").1 + 1 :=
  c2_duplicate_second_rejected hash_demo pick_first valid_pick_first 10 11 demo_state
    "alice" "bob" [7] (by decide) (by decide) (by decide) (by decide)

theorem reverse_take_reverse (l : List MessageRow) (n : Nat) :
    (l.reverse.take n).reverse = l.drop (l.length - n) := by
  rw [← List.rtake_eq_reverse_take_reverse]
  rfl

theorem sort_asc_of_sorted (l : List MessageRow)
    (h : l.Pairwise (fun x y => x.id < y.id)) : sort_asc l = l := by
  induction l with
  | nil => rfl
  | cons x xs ih =>
    have htail := ih (List.pairwise_cons.1 h).2
    show insert_by _ x (sort_asc xs) = x :: xs
    rw [htail]
    cases xs with
    | nil => rfl
    | cons y ys =>
      have hxy := (List.pairwise_cons.1 h).1 y (List.mem_cons_self _ _)
      unfold insert_by
      rw [if_pos (by simp; omega)]

theorem insert_by_append_of_all_neg (le : MessageRow → MessageRow → Bool)
    (x : MessageRow) (l : List MessageRow) (h : ∀ y ∈ l, le x y = false) :
    insert_by le x l = l ++ [x] := by
  induction l with
  | nil => rfl
  | cons y ys ih =>
    unfold insert_by
    rw [if_neg (by rw [h y (List.mem_cons_self _ _)]; simp)]
    rw [ih (fun z hz => h z (List.mem_cons_of_mem _ hz))]
    rfl

theorem sort_desc_of_sorted (l : List MessageRow)
    (h : l.Pairwise (fun x y => x.id < y.id)) : sort_desc l = l.reverse := by
  induction l with
  | nil => rfl
  | cons x xs ih =>
    have htail := ih (List.pairwise_cons.1 h).2
    show insert_by _ x (sort_desc xs) = (x :: xs).reverse
    rw [htail, List.reverse_cons]
    apply insert_by_append_of_all_neg
    intro y hy
    rw [List.mem_reverse] at hy
    have := (List.pairwise_cons.1 h).1 y hy
    simp
    omega

/-- C4: every successful history response is in ascending message-id
order, and each mode selects the page the specification describes: with no
anchor the `limit` highest-id messages involving the user, ascending (a
suffix of the ascending filtered table); with a forward anchor the
messages with id above the anchor, ascending, up to `limit`; with a
backward anchor the `limit` highest-id messages below the anchor,
re-ordered to ascending (main.py lines 186-204). -/
theorem c4_history_ascending (db : DB) (pk : String) (uid a b lim : Nat)
    (hwf : DBwf db) (hu : get_user db pk = some uid) (h0 : uid ≠ 0) :
    get_messages db pk none none lim
      = .ok ((involving db uid).drop ((involving db uid).length - lim)) ∧
    get_messages db pk (some a) none lim
      = .ok (((involving db uid).filter (fun m => a < m.id)).take lim) ∧
    get_messages db pk none (some b) lim
      = .ok (((involving db uid).filter (fun m => m.id < b)).drop
          (((involving db uid).filter (fun m => m.id < b)).length - lim)) ∧
    ((involving db uid).drop ((involving db uid).length - lim)).Pairwise
      (fun x y => x.id < y.id) ∧
    (((involving db uid).filter (fun m => a < m.id)).take lim).Pairwise
      (fun x y => x.id < y.id) ∧
    (((involving db uid).filter (fun m => m.id < b)).drop
        (((involving db uid).filter (fun m => m.id < b)).length - lim)).Pairwise
      (fun x y => x.id < y.id) := by
  have hbase : (involving db uid).Pairwise (fun x y => x.id < y.id) :=
    List.Pairwise.filter _ hwf.2.2.2.2.1
  have hsince : ((involving db uid).filter (fun m => a < m.id)).Pairwise
      (fun x y => x.id < y.id) := List.Pairwise.filter _ hbase
  have huntil : ((involving db uid).filter (fun m => m.id < b)).Pairwise
      (fun x y => x.id < y.id) := List.Pairwise.filter _ hbase
  refine ⟨?_, ?_, ?_, ?_, ?_, ?_⟩
  · simp [get_messages, hu, truthy, h0]
    rw [sort_desc_of_sorted _ hbase, reverse_take_reverse]
  · simp [get_messages, hu, truthy, h0]
    rw [sort_asc_of_sorted _ hsince]
  · simp [get_messages, hu, truthy, h0]
    rw [sort_desc_of_sorted _ huntil, reverse_take_reverse]
  · exact List.Pairwise.sublist (List.drop_sublist _ _) hbase
  · exact List.Pairwise.sublist (List.take_sublist _ _) hsince
  · exact List.Pairwise.sublist (List.drop_sublist _ _) huntil

/-- Witness for C4: the three history modes of alice against a concrete
four-message table, with limit 2 and anchors 1 and 3. -/
theorem c4_witness :
    DBwf c4_db ∧
    (get_messages c4_db "alice" none none 2
        = .ok ((involving c4_db 1).drop ((involving c4_db 1).length - 2)) ∧
      get_messages c4_db "alice" (some 1) none 2
        = .ok (((involving c4_db 1).filter (fun m => 1 < m.id)).take 2) ∧
      get_messages c4_db "alice" none (some 3) 2
        = .ok (((involving c4_db 1).filter (fun m => m.id < 3)).drop
            (((involving c4_db 1).filter (fun m => m.id < 3)).length - 2)) ∧
      ((involving c4_db 1).drop ((involving c4_db 1).length - 2)).Pairwise
        (fun x y => x.id < y.id) ∧
      (((involving c4_db 1).filter (fun m => 1 < m.id)).take 2).Pairwise
        (fun x y => x.id < y.id) ∧
      (((involving c4_db 1).filter (fun m => m.id < 3)).drop
          (((involving c4_db 1).filter (fun m => m.id < 3)).length - 2)).Pairwise
        (fun x y => x.id < y.id)) :=
  ⟨by decide,
   c4_history_ascending c4_db "alice" 1 1 3 2 (by decide) (by decide) (by decide)⟩

/-- Deleting rows by id commutes with the per-recipient filter. -/
theorem filtered_hashes_delete (db : DB) (recip i : Nat) :
    filtered_hashes
        { db with message_hashes := db.message_hashes.filter (fun r => r.id != i) } recip
      = (filtered_hashes db recip).filter (fun r => r.id != i) := by
  unfold filtered_hashes
  simp only [List.filter_filter]
  congr 1
  funext r
  exact Bool.and_comm _ _

/-- C8 counterexample: the claim says the evicted record is the oldest by
`created_at` ascending with id ascending as the tie-break.  The delete
query of main.py lines 100-106 orders by `created_at` alone, so when the
two oldest records tie on `created_at` (rows 1 and 2 of the concrete
state) the database may return either; under the `pick_last` resolution,
which satisfies the oldest-row contract `ValidPick`, the accepted 51st
submission deletes row 2 and keeps row 1, while the claimed tie-break
requires row 1 (the tie with the smaller id) to be the deleted one. -/
theorem c8_counterexample :
    ValidPick pick_last ∧
    (filtered_hashes c8_state.db 2).take 2
      = [⟨1, 2, 100, 0⟩, ⟨2, 2, 101, 0⟩] ∧
    ((save_message hash_demo pick_last false 60 c8_state "alice" "bob" [9]).2.db.message_hashes.any
        (fun r => r.id == 1)) = true ∧
    ((save_message hash_demo pick_last false 60 c8_state "alice" "bob" [9]).2.db.message_hashes.any
        (fun r => r.id == 2)) = false :=
  ⟨valid_pick_last, rfl, rfl, rfl⟩

/-- C8 amended: whenever an accepted submission makes the recipient's
replay-record count exceed K=50, exactly one record is deleted and it has
the minimal `created_at` among the recipient's records at that moment; the
choice among records tying on `created_at` is left to the database (no id
tie-break).  Formally: some record q of minimal `created_at` among the
recipient's post-insert records is removed, the table becomes the
post-insert table less the id of q, and the recipient's record count
returns to its pre-insert value. -/
theorem c8_one_minimal_record_deleted (hash : List Nat → Nat)
    (pick : List HashRow → Option HashRow) (hpick : ValidPick pick)
    (ts : Nat) (st : SState) (spk rpk : String) (ct : List Nat)
    (hwf : DBwf st.db) (hct : ¬ ct = [])
    (hfresh : replay_hit (get_or_create_user (get_or_create_user st.db spk).2 rpk).2
        (get_or_create_user (get_or_create_user st.db spk).2 rpk).1 (hash ct) = false)
    (hcount : REPLAY_ATTACK_HASH_COUNT
        ≤ hash_count (get_or_create_user (get_or_create_user st.db spk).2 rpk).2
            (get_or_create_user (get_or_create_user st.db spk).2 rpk).1) :
    ∃ q,
      q ∈ filtered_hashes
          (tx_insert (get_or_create_user (get_or_create_user st.db spk).2 rpk).2
            (get_or_create_user st.db spk).1
            (get_or_create_user (get_or_create_user st.db spk).2 rpk).1 (hash ct) ts ct)
          (get_or_create_user (get_or_create_user st.db spk).2 rpk).1 ∧
      (∀ x ∈ filtered_hashes
          (tx_insert (get_or_create_user (get_or_create_user st.db spk).2 rpk).2
            (get_or_create_user st.db spk).1
            (get_or_create_user (get_or_create_user st.db spk).2 rpk).1 (hash ct) ts ct)
          (get_or_create_user (get_or_create_user st.db spk).2 rpk).1,
        q.created_at ≤ x.created_at) ∧
      (save_message hash pick false ts st spk rpk ct).2.db.message_hashes
        = (tx_insert (get_or_create_user (get_or_create_user st.db spk).2 rpk).2
            (get_or_create_user st.db spk).1
            (get_or_create_user (get_or_create_user st.db spk).2 rpk).1
            (hash ct) ts ct).message_hashes.filter (fun r => r.id != q.id) ∧
      hash_count (save_message hash pick false ts st spk rpk ct).2.db
          (get_or_create_user (get_or_create_user st.db spk).2 rpk).1
        = hash_count (get_or_create_user (get_or_create_user st.db spk).2 rpk).2
            (get_or_create_user (get_or_create_user st.db spk).2 rpk).1 := by
  have hwf2 : DBwf (get_or_create_user (get_or_create_user st.db spk).2 rpk).2 :=
    DBwf_goc _ _ (DBwf_goc _ _ hwf)
  obtain ⟨acc1, accdb, _, _⟩ := save_message_accepted hash pick ts st spk rpk ct
    (get_or_create_user st.db spk).1
    (get_or_create_user (get_or_create_user st.db spk).2 rpk).1
    (get_or_create_user (get_or_create_user st.db spk).2 rpk).2 rfl rfl hct hfresh hwf2
  have hgt : hash_count
      (tx_insert (get_or_create_user (get_or_create_user st.db spk).2 rpk).2
        (get_or_create_user st.db spk).1
        (get_or_create_user (get_or_create_user st.db spk).2 rpk).1 (hash ct) ts ct)
      (get_or_create_user (get_or_create_user st.db spk).2 rpk).1
      > REPLAY_ATTACK_HASH_COUNT := by
    rw [hash_count_tx_insert]
    omega
  cases hq : pick (filtered_hashes
      (tx_insert (get_or_create_user (get_or_create_user st.db spk).2 rpk).2
        (get_or_create_user st.db spk).1
        (get_or_create_user (get_or_create_user st.db spk).2 rpk).1 (hash ct) ts ct)
      (get_or_create_user (get_or_create_user st.db spk).2 rpk).1) with
  | none =>
    have hemp := (hpick _).2 hq
    unfold hash_count at hgt
    rw [hemp] at hgt
    simp at hgt
  | some q =>
    obtain ⟨hqmem, hqmin⟩ := (hpick _).1 q hq
    have hq0 : q.id ≠ 0 := by
      have hsub : q ∈ (get_or_create_user (get_or_create_user st.db spk).2 rpk).2.message_hashes
          ++ [(⟨(get_or_create_user (get_or_create_user st.db spk).2 rpk).2.next_hash_id,
              (get_or_create_user (get_or_create_user st.db spk).2 rpk).1, hash ct, ts⟩
              : HashRow)] := (List.mem_filter.1 hqmem).1
      rcases List.mem_append.1 hsub with hm | hm
      · have := (hwf2.2.2.2.2.2.2.2 q hm).1
        omega
      · simp at hm
        rw [hm]
        have := hwf2.2.2.2.1
        simp
        omega
    have htrim := trim_hashes_picked pick
      (tx_insert (get_or_create_user (get_or_create_user st.db spk).2 rpk).2
        (get_or_create_user st.db spk).1
        (get_or_create_user (get_or_create_user st.db spk).2 rpk).1 (hash ct) ts ct)
      (get_or_create_user (get_or_create_user st.db spk).2 rpk).1 q hgt hq hq0
    have hpwf : (filtered_hashes
        (tx_insert (get_or_create_user (get_or_create_user st.db spk).2 rpk).2
          (get_or_create_user st.db spk).1
          (get_or_create_user (get_or_create_user st.db spk).2 rpk).1 (hash ct) ts ct)
        (get_or_create_user (get_or_create_user st.db spk).2 rpk).1).Pairwise
        (fun x y => x.id < y.id) :=
      List.Pairwise.filter _ (pairwise_ids_insert _ _ _ _ _ _ hwf2)
    refine ⟨q, hqmem, hqmin, ?_, ?_⟩
    · rw [accdb]
      show (trim_hashes pick
          (tx_insert (get_or_create_user (get_or_create_user st.db spk).2 rpk).2
            (get_or_create_user st.db spk).1
            (get_or_create_user (get_or_create_user st.db spk).2 rpk).1 (hash ct) ts ct)
          (get_or_create_user (get_or_create_user st.db spk).2 rpk).1).message_hashes = _
      rw [htrim]
    · rw [accdb]
      show hash_count (trim_hashes pick
          (tx_insert (get_or_create_user (get_or_create_user st.db spk).2 rpk).2
            (get_or_create_user st.db spk).1
            (get_or_create_user (get_or_create_user st.db spk).2 rpk).1 (hash ct) ts ct)
          (get_or_create_user (get_or_create_user st.db spk).2 rpk).1) _ = _
      rw [htrim]
      unfold hash_count
      rw [filtered_hashes_delete]
      have hlen := length_filter_ne_of_mem _ q hpwf hqmem
      have hins := hash_count_tx_insert
        (get_or_create_user (get_or_create_user st.db spk).2 rpk).2
        (get_or_create_user st.db spk).1
        (get_or_create_user (get_or_create_user st.db spk).2 rpk).1 (hash ct) ts ct
      unfold hash_count at hins
      omega

/-- Witness for the amended C8: on the concrete 50-record state, the 51st
accepted submission (under the `pick_first` resolution) deletes exactly
one record of minimal `created_at` and the count returns to 50. -/
theorem c8_one_minimal_record_deleted_witness :
    DBwf c8_state.db ∧
    REPLAY_ATTACK_HASH_COUNT
      ≤ hash_count (get_or_create_user (get_or_create_user c8_state.db "alice").2 "bob").2
          (get_or_create_user (get_or_create_user c8_state.db "alice").2 "bob").1 ∧
    (∃ q,
      q ∈ filtered_hashes
          (tx_insert (get_or_create_user (get_or_create_user c8_state.db "alice").2 "bob").2
            (get_or_create_user c8_state.db "alice").1
            (get_or_create_user (get_or_create_user c8_state.db "alice").2 "bob").1
            (hash_demo [9]) 60 [9])
          (get_or_create_user (get_or_create_user c8_state.db "alice").2 "bob").1 ∧
      (∀ x ∈ filtered_hashes
          (tx_insert (get_or_create_user (get_or_create_user c8_state.db "alice").2 "bob").2
            (get_or_create_user c8_state.db "alice").1
            (get_or_create_user (get_or_create_user c8_state.db "alice").2 "bob").1
            (hash_demo [9]) 60 [9])
          (get_or_create_user (get_or_create_user c8_state.db "alice").2 "bob").1,
        q.created_at ≤ x.created_at) ∧
      (save_message hash_demo pick_first false 60 c8_state "alice" "bob" [9]).2.db.message_hashes
        = (tx_insert (get_or_create_user (get_or_create_user c8_state.db "alice").2 "bob").2
            (get_or_create_user c8_state.db "alice").1
            (get_or_create_user (get_or_create_user c8_state.db "alice").2 "bob").1
            (hash_demo [9]) 60 [9]).message_hashes.filter (fun r => r.id != q.id) ∧
      hash_count (save_message hash_demo pick_first false 60 c8_state "alice" "bob" [9]).2.db
          (get_or_create_user (get_or_create_user c8_state.db "alice").2 "bob").1
        = hash_count (get_or_create_user (get_or_create_user c8_state.db "alice").2 "bob").2
            (get_or_create_user (get_or_create_user c8_state.db "alice").2 "bob").1) :=
  ⟨by decide, by decide,
   c8_one_minimal_record_deleted hash_demo pick_first valid_pick_first 60 c8_state
     "alice" "bob" [9] (by decide) (by decide) (by decide) (by decide)⟩

theorem buf_lookup_set_self (l : List (Nat × List MessageRow)) (k : Nat)
    (v : List MessageRow) : buf_lookup (buf_set l k v) k = some v := by
  induction l with
  | nil => simp [buf_set, buf_lookup, List.find?]
  | cons p rest ih =>
    unfold buf_set
    by_cases hk : p.1 = k
    · rw [if_pos (by simp [hk])]
      simp [buf_lookup, List.find?]
    · rw [if_neg (by simp [hk])]
      unfold buf_lookup at ih ⊢
      rw [List.find?_cons_of_neg _ (by simp [hk])]
      exact ih

theorem mem_waiting_add (l : List Nat) (k : Nat) : k ∈ waiting_add l k := by
  unfold waiting_add
  split
  · assumption
  · exact List.mem_append_right _ (List.mem_singleton.2 rfl)

theorem poll_begin_registered_elim (st : SState) (ppk : String) (uid : Nat) (st1 : SState)
    (h : poll_begin st ppk = PollStart.registered uid st1) :
    get_user st.db ppk = some uid ∧ uid ≠ 0 ∧
    st1 = { st with hub := { waiting := waiting_add st.hub.waiting uid,
                             new_messages := buf_set st.hub.new_messages uid [] } } := by
  unfold poll_begin at h
  split at h
  · simp at h
  · rename_i htr
    dsimp only [] at h
    split at h
    · simp at h
    · injection h with h1 h2
      cases hg : get_user st.db ppk with
      | none =>
        rw [hg] at htr
        simp [truthy] at htr
      | some n =>
        rw [hg] at htr
        simp [truthy] at htr
        rw [hg] at h1 h2
        simp at h1
        subst h1
        refine ⟨rfl, htr, ?_⟩
        rw [← h2]
        simp

theorem run_saves_buffer (hash : List Nat → Nat) (pick : List HashRow → Option HashRow)
    (rpk : String) (uid n0 : Nat) (h0 : uid ≠ 0) :
    ∀ (subs : List (String × List Nat × Nat)) (st : SState),
      DBwf st.db →
      get_user st.db rpk = some uid →
      uid ∈ st.hub.waiting →
      n0 ≤ st.db.messages.length →
      buf_lookup st.hub.new_messages uid = some (st.db.messages.drop n0) →
      (∀ e ∈ (run_saves hash pick rpk subs st).2, is_ok e = true) →
      DBwf (run_saves hash pick rpk subs st).1.db ∧
      get_user (run_saves hash pick rpk subs st).1.db rpk = some uid ∧
      uid ∈ (run_saves hash pick rpk subs st).1.hub.waiting ∧
      n0 ≤ (run_saves hash pick rpk subs st).1.db.messages.length ∧
      buf_lookup (run_saves hash pick rpk subs st).1.hub.new_messages uid
        = some ((run_saves hash pick rpk subs st).1.db.messages.drop n0) ∧
      List.IsPrefix st.db.messages (run_saves hash pick rpk subs st).1.db.messages ∧
      ((run_saves hash pick rpk subs st).1.db.messages.drop st.db.messages.length).map
          (fun m => m.ciphertext) = subs.map (fun p => p.2.1) ∧
      (∀ m ∈ (run_saves hash pick rpk subs st).1.db.messages.drop st.db.messages.length,
        m.recipient_id = uid) := by
  intro subs
  induction subs with
  | nil =>
    intro st h1 h2 h4 h5 h6 _
    refine ⟨h1, h2, h4, h5, h6, List.prefix_refl _, ?_, ?_⟩
    · rw [show (run_saves hash pick rpk [] st).1 = st from rfl, List.drop_length]
      rfl
    · rw [show (run_saves hash pick rpk [] st).1 = st from rfl, List.drop_length]
      intro m hm
      cases hm
  | cons sub rest ih =>
    intro st h1 h2 h4 h5 h6 hok
    obtain ⟨spk, ct, ts⟩ := sub
    have hcons2 : (run_saves hash pick rpk ((spk, ct, ts) :: rest) st).2
        = (save_message hash pick false ts st spk rpk ct).1
          :: (run_saves hash pick rpk rest (save_message hash pick false ts st spk rpk ct).2).2 :=
      rfl
    have hcons1 : (run_saves hash pick rpk ((spk, ct, ts) :: rest) st).1
        = (run_saves hash pick rpk rest (save_message hash pick false ts st spk rpk ct).2).1 :=
      rfl
    have hok_head : is_ok (save_message hash pick false ts st spk rpk ct).1 = true := by
      apply hok
      rw [hcons2]
      exact List.mem_cons_self _ _
    obtain ⟨mid, hmid⟩ : ∃ mid, (save_message hash pick false ts st spk rpk ct).1
        = .ok mid := by
      cases hres : (save_message hash pick false ts st spk rpk ct).1 with
      | ok m => exact ⟨m, rfl⟩
      | error e =>
        rw [hres] at hok_head
        simp [is_ok] at hok_head
    obtain ⟨hct2, hfresh2⟩ := save_message_ok_elim hash pick false ts st spk rpk ct mid hmid
    have hgu1 : get_user (get_or_create_user st.db spk).2 rpk = some uid :=
      get_user_goc_mono st.db spk rpk uid h2
    have hgoc_r : get_or_create_user (get_or_create_user st.db spk).2 rpk
        = (uid, (get_or_create_user st.db spk).2) :=
      get_or_create_user_found _ rpk uid hgu1 h0
    have hwf1 : DBwf (get_or_create_user st.db spk).2 := DBwf_goc _ _ h1
    have hfresh3 : replay_hit (get_or_create_user st.db spk).2 uid (hash ct) = false := by
      rw [hgoc_r] at hfresh2
      exact hfresh2
    obtain ⟨acc1, accdb, acchub, _⟩ := save_message_accepted hash pick ts st spk rpk ct
      (get_or_create_user st.db spk).1 uid (get_or_create_user st.db spk).2 rfl hgoc_r hct2
      hfresh3 hwf1
    obtain ⟨f1, f2, f3, f4, f5, f6⟩ := tx_frame pick (get_or_create_user st.db spk).2
      (get_or_create_user st.db spk).1 uid (hash ct) ts ct
    obtain ⟨g1, g2, g3, g4⟩ := get_or_create_user_frame st.db spk
    have hwf' : DBwf (save_message hash pick false ts st spk rpk ct).2.db :=
      DBwf_save hash pick false ts st spk rpk ct h1
    have husers : (save_message hash pick false ts st spk rpk ct).2.db.users
        = (get_or_create_user st.db spk).2.users := by
      rw [accdb, f2]
    have hmsgs : (save_message hash pick false ts st spk rpk ct).2.db.messages
        = st.db.messages
          ++ [⟨(get_or_create_user st.db spk).2.next_message_id,
                (get_or_create_user st.db spk).1, uid, ct⟩] := by
      rw [accdb, f3, g1]
    have hgu' : get_user (save_message hash pick false ts st spk rpk ct).2.db rpk
        = some uid := by
      rw [get_user_congr _ _ rpk husers]
      exact hgu1
    have hhub := acchub h4
    have hwait' : uid ∈ (save_message hash pick false ts st spk rpk ct).2.hub.waiting := by
      rw [hhub]
      exact h4
    have hbuf' : buf_lookup (save_message hash pick false ts st spk rpk ct).2.hub.new_messages
        uid = some ((save_message hash pick false ts st spk rpk ct).2.db.messages.drop n0) := by
      rw [hhub]
      show buf_lookup (buf_set st.hub.new_messages uid _) uid = _
      rw [buf_lookup_set_self]
      rw [h6]
      rw [hmsgs, List.drop_append_of_le_length h5]
      rfl
    have hlen' : n0 ≤ (save_message hash pick false ts st spk rpk ct).2.db.messages.length := by
      rw [hmsgs]
      rw [List.length_append]
      omega
    have hok_rest : ∀ e ∈ (run_saves hash pick rpk rest
        (save_message hash pick false ts st spk rpk ct).2).2, is_ok e = true := by
      intro e he
      apply hok
      rw [hcons2]
      exact List.mem_cons_of_mem _ he
    obtain ⟨i1, i2, i3, i4, i5, i6, i7, i8⟩ :=
      ih (save_message hash pick false ts st spk rpk ct).2 hwf' hgu' hwait' hlen' hbuf'
        hok_rest
    obtain ⟨t, ht⟩ := i6
    rw [hmsgs] at ht
    have hfinal : (run_saves hash pick rpk ((spk, ct, ts) :: rest) st).1.db.messages
        = st.db.messages
          ++ (⟨(get_or_create_user st.db spk).2.next_message_id,
                (get_or_create_user st.db spk).1, uid, ct⟩ :: t) := by
      rw [hcons1, ← ht]
      simp
    have hdrop_st : (run_saves hash pick rpk ((spk, ct, ts) :: rest) st).1.db.messages.drop
        st.db.messages.length
        = ⟨(get_or_create_user st.db spk).2.next_message_id,
            (get_or_create_user st.db spk).1, uid, ct⟩ :: t := by
      rw [hfinal, List.drop_left]
    have hdrop_st' : (run_saves hash pick rpk rest
        (save_message hash pick false ts st spk rpk ct).2).1.db.messages.drop
        (save_message hash pick false ts st spk rpk ct).2.db.messages.length = t := by
      rw [← ht, hmsgs]
      rw [List.drop_left]
    refine ⟨?_, ?_, ?_, ?_, ?_, ?_, ?_, ?_⟩
    · rw [hcons1]
      exact i1
    · rw [hcons1]
      exact i2
    · rw [hcons1]
      exact i3
    · rw [hcons1]
      exact i4
    · rw [hcons1]
      exact i5
    · rw [hfinal]
      exact List.prefix_append _ _
    · rw [hdrop_st]
      rw [hdrop_st'] at i7
      simp [i7]
    · rw [hdrop_st]
      intro m hm
      rcases List.mem_cons.1 hm with he | hm2
      · rw [he]
      · apply i8
        rw [hdrop_st']
        exact hm2

/-- C6: a poller registered before the submissions begin resolves with
exactly the messages committed for it during the wait, in submission
order, in one poll: after the wait the buffer drained by the wake path of
poll_for_messages (main.py lines 149-166) holds precisely the rows
appended during the wait, their ciphertexts are the submitted ciphertexts
in order (every delivery accumulated in the buffer, not only the last),
and every returned message is addressed to the poller. -/
theorem c6_live_delivery (hash : List Nat → Nat) (pick : List HashRow → Option HashRow)
    (st : SState) (ppk : String) (uid : Nat) (st1 : SState)
    (hwf : DBwf st.db)
    (hreg : poll_begin st ppk = PollStart.registered uid st1)
    (subs : List (String × List Nat × Nat))
    (hok : ∀ e ∈ (run_saves hash pick ppk subs st1).2, is_ok e = true) :
    (poll_resume (run_saves hash pick ppk subs st1).1 uid).1
      = (run_saves hash pick ppk subs st1).1.db.messages.drop st1.db.messages.length ∧
    ((poll_resume (run_saves hash pick ppk subs st1).1 uid).1).map (fun m => m.ciphertext)
      = subs.map (fun p => p.2.1) ∧
    (∀ m ∈ (poll_resume (run_saves hash pick ppk subs st1).1 uid).1,
      m.recipient_id = uid) := by
  obtain ⟨hgu, h0, hst1⟩ := poll_begin_registered_elim st ppk uid st1 hreg
  have hdb1 : st1.db = st.db := by
    rw [hst1]
  have w1 : DBwf st1.db := by
    rw [hdb1]
    exact hwf
  have w2 : get_user st1.db ppk = some uid := by
    rw [hdb1]
    exact hgu
  have w3 : uid ∈ st1.hub.waiting := by
    rw [hst1]
    exact mem_waiting_add _ _
  have w5 : buf_lookup st1.hub.new_messages uid
      = some (st1.db.messages.drop st1.db.messages.length) := by
    rw [List.drop_length]
    rw [hst1]
    exact buf_lookup_set_self _ _ []
  obtain ⟨i1, i2, i3, i4, i5, i6, i7, i8⟩ :=
    run_saves_buffer hash pick ppk uid st1.db.messages.length h0 subs st1 w1 w2 w3
      (le_refl _) w5 hok
  have hres : (poll_resume (run_saves hash pick ppk subs st1).1 uid).1
      = (run_saves hash pick ppk subs st1).1.db.messages.drop st1.db.messages.length := by
    show (buf_lookup (run_saves hash pick ppk subs st1).1.hub.new_messages uid).getD [] = _
    rw [i5]
    rfl
  refine ⟨hres, ?_, ?_⟩
  · rw [hres]
    exact i7
  · rw [hres]
    exact i8

/-- Witness for C6: bob polls against the concrete database, then alice
submits [7] and [8]; the resume returns exactly those two messages in
order. -/
theorem c6_witness :
    DBwf demo_state.db ∧
    poll_begin demo_state "bob" = PollStart.registered 2 demo_wait_state ∧
    (∀ e ∈ (run_saves hash_demo pick_first "bob"
        [("alice", [7], 10), ("alice", [8], 11)] demo_wait_state).2, is_ok e = true) ∧
    ((poll_resume (run_saves hash_demo pick_first "bob"
          [("alice", [7], 10), ("alice", [8], 11)] demo_wait_state).1 2).1.map
        (fun m => m.ciphertext)
      = [[7], [8]]) :=
  ⟨by decide, rfl, by decide,
   by
    rw [(c6_live_delivery hash_demo pick_first demo_state "bob" 2 demo_wait_state
      (by decide) rfl [("alice", [7], 10), ("alice", [8], 11)] (by decide)).2.1]
    rfl⟩
theorem filter_swap (X : List HashRow) (p q : HashRow → Bool) :
    (X.filter p).filter q = (X.filter q).filter p := by
  simp only [List.filter_filter]
  congr 1
  funext a
  exact Bool.and_comm _ _

theorem filtered_hashes_congr (dbA dbB : DB) (r : Nat)
    (h : dbA.message_hashes = dbB.message_hashes) :
    filtered_hashes dbA r = filtered_hashes dbB r := by
  unfold filtered_hashes
  rw [h]

theorem replay_hit_false_of_filtered (db : DB) (recip h : Nat)
    (hx : ∀ x ∈ filtered_hashes db recip, x.message_hash ≠ h) :
    replay_hit db recip h = false := by
  cases hcase : replay_hit db recip h with
  | false => rfl
  | true =>
    obtain ⟨row, hmem, hr, hh⟩ := (replay_hit_iff db recip h).1 hcase
    have hrow : row ∈ filtered_hashes db recip :=
      List.mem_filter.2 ⟨hmem, by simp [hr]⟩
    exact absurd hh (hx row hrow)

theorem hash_count_le_tx (pick : List HashRow → Option HashRow) (hpick : ValidPick pick)
    (db : DB) (sender recip2 h ts : Nat) (ct : List Nat) (recip : Nat) (hwf : DBwf db)
    (hle : hash_count db recip ≤ REPLAY_ATTACK_HASH_COUNT) :
    hash_count (tx_body pick db sender recip2 h ts ct).2 recip
      ≤ REPLAY_ATTACK_HASH_COUNT := by
  by_cases hrr : recip = recip2
  · subst hrr
    by_cases hc : hash_count db recip + 1 ≤ REPLAY_ATTACK_HASH_COUNT
    · rw [tx_hashes_no_trim pick db sender recip h ts ct hc]
      rw [hash_count_tx_insert]
      exact hc
    · have hgt : hash_count (tx_insert db sender recip h ts ct) recip
          > REPLAY_ATTACK_HASH_COUNT := by
        rw [hash_count_tx_insert]
        omega
      cases hq : pick (filtered_hashes (tx_insert db sender recip h ts ct) recip) with
      | none =>
        have hemp := (hpick _).2 hq
        unfold hash_count at hgt
        rw [hemp] at hgt
        simp at hgt
      | some q =>
        obtain ⟨hqmem, _⟩ := (hpick _).1 q hq
        have hq0 : q.id ≠ 0 := by
          have hsub : q ∈ db.message_hashes
              ++ [(⟨db.next_hash_id, recip, h, ts⟩ : HashRow)] :=
            (List.mem_filter.1 hqmem).1
          rcases List.mem_append.1 hsub with hm | hm
          · have := (hwf.2.2.2.2.2.2.2 q hm).1
            omega
          · simp at hm
            rw [hm]
            have := hwf.2.2.2.1
            simp
            omega
        have htrim := trim_hashes_picked pick (tx_insert db sender recip h ts ct) recip q
          hgt hq hq0
        rw [show (tx_body pick db sender recip h ts ct).2
          = trim_hashes pick (tx_insert db sender recip h ts ct) recip from rfl, htrim]
        unfold hash_count
        rw [filtered_hashes_delete]
        have hpwf : (filtered_hashes (tx_insert db sender recip h ts ct) recip).Pairwise
            (fun x y => x.id < y.id) :=
          List.Pairwise.filter _ (pairwise_ids_insert _ _ _ _ _ _ hwf)
        have hlen := length_filter_ne_of_mem _ q hpwf hqmem
        have hins := hash_count_tx_insert db sender recip h ts ct
        unfold hash_count at hins hle
        omega
  · have hins : filtered_hashes (tx_insert db sender recip2 h ts ct) recip
        = filtered_hashes db recip :=
      filtered_tx_insert_other db sender recip2 h ts recip ct hrr
    rcases trim_hashes_cases pick (tx_insert db sender recip2 h ts ct) recip2 with
      hcs | ⟨i, hcs⟩
    · have : filtered_hashes (tx_body pick db sender recip2 h ts ct).2 recip
          = filtered_hashes db recip := by
        rw [filtered_hashes_congr (tx_body pick db sender recip2 h ts ct).2
          (tx_insert db sender recip2 h ts ct) recip hcs]
        exact hins
      unfold hash_count
      rw [this]
      exact hle
    · have hfd : filtered_hashes (tx_body pick db sender recip2 h ts ct).2 recip
          = (filtered_hashes db recip).filter (fun rr => rr.id != i) := by
        show ((tx_body pick db sender recip2 h ts ct).2.message_hashes).filter
            (fun rr => rr.recipient_id == recip)
          = (filtered_hashes db recip).filter (fun rr => rr.id != i)
        rw [show (tx_body pick db sender recip2 h ts ct).2.message_hashes
          = (trim_hashes pick (tx_insert db sender recip2 h ts ct) recip2).message_hashes
          from rfl, hcs]
        rw [filter_swap]
        rw [show (tx_insert db sender recip2 h ts ct).message_hashes.filter
            (fun rr => rr.recipient_id == recip)
          = filtered_hashes (tx_insert db sender recip2 h ts ct) recip from rfl]
        rw [hins]
      unfold hash_count
      rw [hfd]
      calc ((filtered_hashes db recip).filter (fun rr => rr.id != i)).length
          ≤ (filtered_hashes db recip).length := List.length_filter_le _ _
        _ ≤ REPLAY_ATTACK_HASH_COUNT := hle

theorem hash_count_le_save (hash : List Nat → Nat) (pick : List HashRow → Option HashRow)
    (hpick : ValidPick pick) (nf : Bool) (ts : Nat) (st : SState) (spk rpk : String)
    (ct : List Nat) (recip : Nat) (hwf : DBwf st.db)
    (hle : hash_count st.db recip ≤ REPLAY_ATTACK_HASH_COUNT) :
    hash_count (save_message hash pick nf ts st spk rpk ct).2.db recip
      ≤ REPLAY_ATTACK_HASH_COUNT := by
  have hcongr : filtered_hashes (get_or_create_user (get_or_create_user st.db spk).2 rpk).2
      recip = filtered_hashes st.db recip := by
    apply filtered_hashes_congr
    rw [(get_or_create_user_frame (get_or_create_user st.db spk).2 rpk).2.1,
      (get_or_create_user_frame st.db spk).2.1]
  have hle2 : hash_count (get_or_create_user (get_or_create_user st.db spk).2 rpk).2 recip
      ≤ REPLAY_ATTACK_HASH_COUNT := by
    unfold hash_count
    rw [hcongr]
    exact hle
  by_cases hct : ct = []
  · unfold save_message
    rw [if_pos hct]
    exact hle
  · rw [save_message_eq hash pick nf ts st spk rpk ct
      (get_or_create_user st.db spk).1
      (get_or_create_user (get_or_create_user st.db spk).2 rpk).1
      (get_or_create_user (get_or_create_user st.db spk).2 rpk).2 rfl rfl hct]
    have hwf2 : DBwf (get_or_create_user (get_or_create_user st.db spk).2 rpk).2 :=
      DBwf_goc _ _ (DBwf_goc _ _ hwf)
    split
    · unfold hash_count
      rw [show ((Except.error ApiError.conflict,
          (⟨(get_or_create_user (get_or_create_user st.db spk).2 rpk).2, st.hub⟩ : SState)) :
          Except ApiError Nat × SState).2.db
        = (get_or_create_user (get_or_create_user st.db spk).2 rpk).2 from rfl]
      rw [hcongr]
      exact hle
    · split
      · exact hash_count_le_tx pick hpick _ _ _ _ _ _ recip hwf2 hle2
      · exact hash_count_le_tx pick hpick _ _ _ _ _ _ recip hwf2 hle2

theorem run_saves_guard (hash : List Nat → Nat) (pick : List HashRow → Option HashRow)
    (hpick : ValidPick pick) (rpk : String) (r : Nat) (h0 : r ≠ 0) :
    ∀ (subs : List (String × List Nat × Nat)) (st : SState),
      DBwf st.db →
      get_user st.db rpk = some r →
      (∀ p ∈ subs, p.2.1 ≠ []) →
      (subs.map (fun p => hash p.2.1)).Pairwise (fun x y => x ≠ y) →
      (subs.map (fun p => p.2.2)).Pairwise (fun x y => x < y) →
      (filtered_hashes st.db r).Pairwise (fun x y => x.created_at < y.created_at) →
      (∀ x ∈ filtered_hashes st.db r, ∀ p ∈ subs, x.created_at < p.2.2) →
      (∀ x ∈ filtered_hashes st.db r, ∀ p ∈ subs, x.message_hash ≠ hash p.2.1) →
      hash_count st.db r ≤ REPLAY_ATTACK_HASH_COUNT →
      ((filtered_hashes (run_saves hash pick rpk subs st).1.db r).map
          (fun x => (x.message_hash, x.created_at)))
        = (((filtered_hashes st.db r).map (fun x => (x.message_hash, x.created_at)))
            ++ subs.map (fun p => (hash p.2.1, p.2.2))).drop
            (hash_count st.db r + subs.length - REPLAY_ATTACK_HASH_COUNT) := by
  intro subs
  induction subs with
  | nil =>
    intro st hwf hgu _ _ _ _ _ _ hle
    rw [show (run_saves hash pick rpk [] st).1 = st from rfl]
    rw [show hash_count st.db r + [].length - REPLAY_ATTACK_HASH_COUNT = 0 from by
      simp
      omega]
    simp
  | cons sub rest ih =>
    intro st hwf hgu hne hdig hts hpw hclock hfreshall hle
    obtain ⟨spk, ct, ts⟩ := sub
    have hcons1 : (run_saves hash pick rpk ((spk, ct, ts) :: rest) st).1
        = (run_saves hash pick rpk rest (save_message hash pick false ts st spk rpk ct).2).1 :=
      rfl
    have hcthead : ¬ ct = [] := hne (spk, ct, ts) (List.mem_cons_self _ _)
    have hgu1 : get_user (get_or_create_user st.db spk).2 rpk = some r :=
      get_user_goc_mono st.db spk rpk r hgu
    have hgoc_r : get_or_create_user (get_or_create_user st.db spk).2 rpk
        = (r, (get_or_create_user st.db spk).2) :=
      get_or_create_user_found _ rpk r hgu1 h0
    have hwf1 : DBwf (get_or_create_user st.db spk).2 := DBwf_goc _ _ hwf
    obtain ⟨g1, g2, g3, g4⟩ := get_or_create_user_frame st.db spk
    have hfil1 : filtered_hashes (get_or_create_user st.db spk).2 r
        = filtered_hashes st.db r :=
      filtered_hashes_congr _ _ r g2
    have hfresh : replay_hit (get_or_create_user st.db spk).2 r (hash ct) = false := by
      apply replay_hit_false_of_filtered
      rw [hfil1]
      intro x hx
      exact hfreshall x hx (spk, ct, ts) (List.mem_cons_self _ _)
    obtain ⟨acc1, accdb, _, _⟩ := save_message_accepted hash pick ts st spk rpk ct
      (get_or_create_user st.db spk).1 r (get_or_create_user st.db spk).2 rfl hgoc_r
      hcthead hfresh hwf1
    have hwf' : DBwf (save_message hash pick false ts st spk rpk ct).2.db :=
      DBwf_save hash pick false ts st spk rpk ct hwf
    have husers : (save_message hash pick false ts st spk rpk ct).2.db.users
        = (get_or_create_user st.db spk).2.users := by
      rw [accdb,
        (tx_frame pick (get_or_create_user st.db spk).2 (get_or_create_user st.db spk).1 r
          (hash ct) ts ct).2.1]
    have hgu' : get_user (save_message hash pick false ts st spk rpk ct).2.db rpk
        = some r := by
      rw [get_user_congr _ _ rpk husers]
      exact hgu1
    have hclock_head : ∀ x ∈ filtered_hashes st.db r, x.created_at < ts := by
      intro x hx
      exact hclock x hx (spk, ct, ts) (List.mem_cons_self _ _)
    have hts_head : ∀ p ∈ rest, ts < p.2.2 := by
      intro p hp
      have := (List.pairwise_cons.1 hts).1 p.2.2 (List.mem_map.2 ⟨p, hp, rfl⟩)
      exact this
    have hdig_head : ∀ p ∈ rest, hash ct ≠ hash p.2.1 := by
      intro p hp
      exact (List.pairwise_cons.1 hdig).1 (hash p.2.1) (List.mem_map.2 ⟨p, hp, rfl⟩)
    -- the new hash row
    by_cases hcase : hash_count st.db r + 1 ≤ REPLAY_ATTACK_HASH_COUNT
    · -- no eviction
      have hA : hash_count (get_or_create_user st.db spk).2 r + 1
          ≤ REPLAY_ATTACK_HASH_COUNT := by
        unfold hash_count
        rw [hfil1]
        exact hcase
      have hno := tx_hashes_no_trim pick (get_or_create_user st.db spk).2
        (get_or_create_user st.db spk).1 r (hash ct) ts ct hA
      have hfil' : filtered_hashes (save_message hash pick false ts st spk rpk ct).2.db r
          = filtered_hashes st.db r
            ++ [⟨(get_or_create_user st.db spk).2.next_hash_id, r, hash ct, ts⟩] := by
        rw [accdb, hno, filtered_tx_insert_self, hfil1]
      have hcount' : hash_count (save_message hash pick false ts st spk rpk ct).2.db r
          = hash_count st.db r + 1 := by
        unfold hash_count
        rw [hfil']
        rw [List.length_append]
        rfl
      have hstep := ih (save_message hash pick false ts st spk rpk ct).2 hwf' hgu'
        (fun p hp => hne p (List.mem_cons_of_mem _ hp))
        (List.pairwise_cons.1 hdig).2
        (List.pairwise_cons.1 hts).2
        (by
          rw [hfil']
          apply List.pairwise_append.2
          refine ⟨hpw, List.pairwise_singleton _ _, ?_⟩
          intro a ha b hb
          simp at hb
          rw [hb]
          exact hclock_head a ha)
        (by
          rw [hfil']
          intro x hx p hp
          rcases List.mem_append.1 hx with hm | hm
          · exact hclock x hm p (List.mem_cons_of_mem _ hp)
          · simp at hm
            rw [hm]
            exact hts_head p hp)
        (by
          rw [hfil']
          intro x hx p hp
          rcases List.mem_append.1 hx with hm | hm
          · exact hfreshall x hm p (List.mem_cons_of_mem _ hp)
          · simp at hm
            rw [hm]
            exact hdig_head p hp)
        (by
          rw [hcount']
          exact hcase)
      rw [hcons1, hstep, hcount', hfil']
      rw [List.map_append]
      rw [List.append_assoc]
      rw [show ([⟨(get_or_create_user st.db spk).2.next_hash_id, r, hash ct, ts⟩]
          : List HashRow).map (fun x => (x.message_hash, x.created_at))
        = [(hash ct, ts)] from rfl]
      rw [List.singleton_append]
      rw [show ((spk, ct, ts) :: rest).map (fun p => (hash p.2.1, p.2.2))
        = (hash ct, ts) :: rest.map (fun p => (hash p.2.1, p.2.2)) from rfl]
      rw [show hash_count st.db r + 1 + rest.length
        = hash_count st.db r + ((spk, ct, ts) :: rest).length from by
          simp
          omega]
    · -- eviction fires: the table already holds exactly K records
      have h50 : hash_count st.db r = REPLAY_ATTACK_HASH_COUNT := by
        omega
      cases hLst : filtered_hashes st.db r with
      | nil =>
        unfold hash_count at h50
        rw [hLst] at h50
        simp [REPLAY_ATTACK_HASH_COUNT] at h50
      | cons r0 L2 =>
        have hL1 : filtered_hashes (get_or_create_user st.db spk).2 r = r0 :: L2 := by
          rw [hfil1, hLst]
        have hr0mem : r0 ∈ filtered_hashes st.db r := by
          rw [hLst]
          exact List.mem_cons_self _ _
        have hpw2 : (r0 :: L2).Pairwise (fun x y => x.created_at < y.created_at) := by
          rw [← hLst]
          exact hpw
        obtain ⟨htr1, htr2⟩ := tx_hashes_trim pick hpick (get_or_create_user st.db spk).2
          (get_or_create_user st.db spk).1 r (hash ct) ts ct hwf1 r0 L2 hL1
          (fun x hx => (List.pairwise_cons.1 hpw2).1 x hx)
          (hclock_head r0 hr0mem)
          (by
            unfold hash_count at h50
            rw [hLst] at h50
            omega)
        have hfil' : filtered_hashes (save_message hash pick false ts st spk rpk ct).2.db r
            = L2 ++ [⟨(get_or_create_user st.db spk).2.next_hash_id, r, hash ct, ts⟩] := by
          rw [accdb]
          exact htr2
        have hlen2 : L2.length + 1 = REPLAY_ATTACK_HASH_COUNT := by
          unfold hash_count at h50
          rw [hLst] at h50
          simpa using h50
        have hcount' : hash_count (save_message hash pick false ts st spk rpk ct).2.db r
            = REPLAY_ATTACK_HASH_COUNT := by
          unfold hash_count
          rw [hfil']
          rw [List.length_append]
          simpa using hlen2
        have hmemL2 : ∀ x ∈ L2, x ∈ filtered_hashes st.db r := by
          intro x hx
          rw [hLst]
          exact List.mem_cons_of_mem _ hx
        have hstep := ih (save_message hash pick false ts st spk rpk ct).2 hwf' hgu'
          (fun p hp => hne p (List.mem_cons_of_mem _ hp))
          (List.pairwise_cons.1 hdig).2
          (List.pairwise_cons.1 hts).2
          (by
            rw [hfil']
            apply List.pairwise_append.2
            refine ⟨(List.pairwise_cons.1 hpw2).2, List.pairwise_singleton _ _, ?_⟩
            intro a ha b hb
            simp at hb
            rw [hb]
            exact hclock_head a (hmemL2 a ha))
          (by
            rw [hfil']
            intro x hx p hp
            rcases List.mem_append.1 hx with hm | hm
            · exact hclock x (hmemL2 x hm) p (List.mem_cons_of_mem _ hp)
            · simp at hm
              rw [hm]
              exact hts_head p hp)
          (by
            rw [hfil']
            intro x hx p hp
            rcases List.mem_append.1 hx with hm | hm
            · exact hfreshall x (hmemL2 x hm) p (List.mem_cons_of_mem _ hp)
            · simp at hm
              rw [hm]
              exact hdig_head p hp)
          (by
            rw [hcount'])
        rw [hcons1, hstep, hcount', hfil']
        rw [List.map_append]
        rw [show ([⟨(get_or_create_user st.db spk).2.next_hash_id, r, hash ct, ts⟩]
            : List HashRow).map (fun x => (x.message_hash, x.created_at))
          = [(hash ct, ts)] from rfl]
        rw [List.append_assoc, List.singleton_append]
        rw [show ((spk, ct, ts) :: rest).map (fun p => (hash p.2.1, p.2.2))
          = (hash ct, ts) :: rest.map (fun p => (hash p.2.1, p.2.2)) from rfl]
        rw [show (r0 :: L2).map (fun x => (x.message_hash, x.created_at))
          = (r0.message_hash, r0.created_at)
            :: L2.map (fun x => (x.message_hash, x.created_at)) from rfl]
        rw [show hash_count st.db r + ((spk, ct, ts) :: rest).length
            - REPLAY_ATTACK_HASH_COUNT = rest.length + 1 from by
          rw [h50]
          simp]
        rw [show REPLAY_ATTACK_HASH_COUNT + rest.length - REPLAY_ATTACK_HASH_COUNT
            = rest.length from by omega]
        rw [List.cons_append, List.drop_succ_cons]

/-- C3: the replay-record bound.  First conjunct: one submit, of any kind,
preserves the bound of K=50 retained records for every recipient (the
cleanup step of main.py lines 94-107 evicts a record whenever the count
exceeds K).  Second conjunct: starting from a recipient with no records,
submitting K+5 distinct-content messages leaves exactly K records, and
they are the digests of the K most recently accepted submissions in
order. -/
theorem c3_replay_bound (hash : List Nat → Nat) (pick : List HashRow → Option HashRow)
    (hpick : ValidPick pick) :
    (∀ (nf : Bool) (ts : Nat) (st : SState) (spk rpk : String) (ct : List Nat) (recip : Nat),
      DBwf st.db → hash_count st.db recip ≤ REPLAY_ATTACK_HASH_COUNT →
      hash_count (save_message hash pick nf ts st spk rpk ct).2.db recip
        ≤ REPLAY_ATTACK_HASH_COUNT) ∧
    (∀ (subs : List (String × List Nat × Nat)) (st : SState) (rpk : String) (r : Nat),
      DBwf st.db → get_user st.db rpk = some r → r ≠ 0 →
      hash_count st.db r = 0 →
      subs.length = REPLAY_ATTACK_HASH_COUNT + 5 →
      (∀ p ∈ subs, p.2.1 ≠ []) →
      (subs.map (fun p => hash p.2.1)).Pairwise (fun x y => x ≠ y) →
      (subs.map (fun p => p.2.2)).Pairwise (fun x y => x < y) →
      ((filtered_hashes (run_saves hash pick rpk subs st).1.db r).map
          (fun x => (x.message_hash, x.created_at)))
        = (subs.map (fun p => (hash p.2.1, p.2.2))).drop 5 ∧
      hash_count (run_saves hash pick rpk subs st).1.db r = REPLAY_ATTACK_HASH_COUNT) := by
  constructor
  · intro nf ts st spk rpk ct recip hwf hle
    exact hash_count_le_save hash pick hpick nf ts st spk rpk ct recip hwf hle
  · intro subs st rpk r hwf hgu h0 hzero hlen hne hdig hts
    have hnil : filtered_hashes st.db r = [] := by
      unfold hash_count at hzero
      exact List.length_eq_zero.1 hzero
    have hmain := run_saves_guard hash pick hpick rpk r h0 subs st hwf hgu hne hdig hts
      (by rw [hnil]; exact List.Pairwise.nil)
      (by rw [hnil]; intro x hx; cases hx)
      (by rw [hnil]; intro x hx; cases hx)
      (by rw [hzero]; simp)
    rw [hnil, hzero, hlen] at hmain
    simp only [List.map_nil, List.nil_append] at hmain
    rw [show 0 + (REPLAY_ATTACK_HASH_COUNT + 5) - REPLAY_ATTACK_HASH_COUNT = 5 from by
      omega] at hmain
    refine ⟨hmain, ?_⟩
    have hlen2 := congrArg List.length hmain
    rw [List.length_map, List.length_drop, List.length_map, hlen] at hlen2
    unfold hash_count
    rw [hlen2]
    omega

/-- Witness for C3: alice sends bob 55 distinct one-byte messages with
increasing timestamps; exactly 50 replay records remain, carrying the
digests of the last 50 submissions. -/
theorem c3_witness :
    DBwf demo_state.db ∧
    hash_count demo_state.db 2 = 0 ∧
    c3_subs.length = REPLAY_ATTACK_HASH_COUNT + 5 ∧
    (((filtered_hashes (run_saves hash_demo pick_first "bob" c3_subs demo_state).1.db 2).map
        (fun x => (x.message_hash, x.created_at)))
      = (c3_subs.map (fun p => (hash_demo p.2.1, p.2.2))).drop 5 ∧
    hash_count (run_saves hash_demo pick_first "bob" c3_subs demo_state).1.db 2
      = REPLAY_ATTACK_HASH_COUNT) :=
  ⟨by decide, by decide, by decide,
   (c3_replay_bound hash_demo pick_first valid_pick_first).2 c3_subs demo_state "bob" 2
     (by decide) (by decide) (by decide) (by decide) (by decide) (by decide) (by decide)
     (by decide)⟩
